import Mathlib

/-!
Verification development for the FinanceAgent analysis pipeline.

The definitions below are a shallow embedding of the Python sources:
`src/tools/tushare_provider.py`, `src/core/result_manager.py`,
`src/graph/nodes/analysis_nodes.py`, `src/graph/main_graph.py`,
`src/tools/stock_tools.py`, `src/core/data_processor.py`,
`src/tools/parsers.py`, `src/tools/crawler.py`,
`src/api/impl_stock.py` and `src/api/streaming_protocol.py`.

Machine conventions: Python `str` is modelled by `String` (a list of
code points, matching Python's code-point indexing); Python integers by
`Nat`/`Int`; Python floats that only ever carry exact decimal constants
(0.55, 3.2, 0.95, 0.2) are modelled by exact rational arithmetic written
as numerator/denominator pairs; `datetime.date` by an explicit
year/month/day structure with the proleptic-Gregorian day-number
conversion, so that `timedelta` subtraction is exact integer day
arithmetic.
-/

set_option maxRecDepth 20000

namespace FinanceAgent

/-! ### Generic string helpers -/

/-- Decidable list-infix test: `needle` occurs contiguously inside `hay`.
Mirrors Python's `needle in hay` on strings. -/
def isPrefixL : List Char → List Char → Bool
  | [], _ => true
  | _ :: _, [] => false
  | a :: as, b :: bs => a = b && isPrefixL as bs

def isInfixL (needle hay : List Char) : Bool :=
  match hay with
  | [] => isPrefixL needle []
  | _ :: tl => isPrefixL needle hay || isInfixL needle tl

/-- Python `needle in hay` for strings. -/
def containsSub (hay needle : String) : Bool :=
  isInfixL needle.data hay.data

/-- Python `"\n\n".join(parts)`. -/
def joinNN : List String → String
  | [] => ""
  | [a] => a
  | a :: rest => a ++ "\n\n" ++ joinNN rest

/-- Python `"\n".join(parts)`. -/
def joinNL : List String → String
  | [] => ""
  | [a] => a
  | a :: rest => a ++ "\n" ++ joinNL rest

/-- First `some` produced by `f` along the list (Python's pattern of
trying alternatives in order). -/
def firstSome {α β : Type} (l : List α) (f : α → Option β) : Option β :=
  match l with
  | [] => none
  | a :: rest =>
    match f a with
    | some b => some b
    | none => firstSome rest f

/-- ASCII decimal digit test (Python's `\d` on the inputs in scope). -/
def isDig (c : Char) : Bool := '0' ≤ c && c ≤ '9'

def digVal (c : Char) : Nat := c.toNat - '0'.toNat

/-- Whitespace as matched by Python's `\s` / `str.strip()` on the
inputs in scope (ASCII whitespace plus the ideographic space U+3000). -/
def isWsC (c : Char) : Bool :=
  c = ' ' || c = '\t' || c = '\n' || c = '\r' ||
  c = Char.ofNat 11 || c = Char.ofNat 12 || c = Char.ofNat 0x3000

/-- Python `str.strip()`. -/
def stripStr (s : String) : String :=
  ⟨(s.data.dropWhile isWsC).reverse.dropWhile isWsC |>.reverse⟩

/-- Decimal digits of `n`, most significant first (fuelled; the fuel
`n + 1` always suffices since `n / 10 < n` for `n ≥ 10`). -/
def natToDecAux : Nat → Nat → List Char
  | 0, _ => []
  | fuel + 1, n =>
    if n < 10 then [Char.ofNat (48 + n)]
    else natToDecAux fuel (n / 10) ++ [Char.ofNat (48 + n % 10)]

def natToDec (n : Nat) : List Char := natToDecAux (n + 1) n

/-- Zero-padded decimal rendering (`%02d`, `%04d` in `strftime`). -/
def padNum (width n : Nat) : String :=
  let d := natToDec n
  ⟨List.replicate (width - d.length) '0' ++ d⟩

/-! ### Dates (`datetime.date` / naive `datetime`)

Proleptic-Gregorian civil calendar with exact day-number conversion, so
`timedelta(days=n)` is integer subtraction on day numbers. -/

structure Date where
  y : Nat
  m : Nat
  d : Nat
deriving DecidableEq, Repr

def isLeap (y : Nat) : Bool :=
  (y % 4 = 0 && y % 100 ≠ 0) || y % 400 = 0

def daysInMonth (y m : Nat) : Nat :=
  if m = 2 then (if isLeap y then 29 else 28)
  else if m = 4 || m = 6 || m = 9 || m = 11 then 30
  else 31

/-- The ranges `datetime.date` accepts (year 1..9999). -/
def validDate (dt : Date) : Bool :=
  1 ≤ dt.y && dt.y ≤ 9999 && 1 ≤ dt.m && dt.m ≤ 12 &&
  1 ≤ dt.d && dt.d ≤ daysInMonth dt.y dt.m

/-- Days since 1970-01-01 (days-from-civil). -/
def toDays (dt : Date) : Int :=
  let yAdj : Int := (dt.y : Int) - (if dt.m ≤ 2 then 1 else 0)
  let era : Int := Int.fdiv yAdj 400
  let yoe : Int := yAdj - era * 400
  let mp : Int := if dt.m ≥ 3 then (dt.m : Int) - 3 else (dt.m : Int) + 9
  let doy : Int := (153 * mp + 2) / 5 + (dt.d : Int) - 1
  let doe : Int := yoe * 365 + yoe / 4 - yoe / 100 + doy
  era * 146097 + doe - 719468

/-- Civil date from days since 1970-01-01 (civil-from-days). -/
def ofDays (z0 : Int) : Date :=
  let z : Int := z0 + 719468
  let era : Int := Int.fdiv z 146097
  let doe : Nat := (z - era * 146097).toNat
  let yoe : Nat := (doe - doe / 1460 + doe / 36524 - doe / 146096) / 365
  let yy : Int := (yoe : Int) + era * 400
  let doy : Nat := doe - (365 * yoe + yoe / 4 - yoe / 100)
  let mp : Nat := (5 * doy + 2) / 153
  let dd : Nat := doy - (153 * mp + 2) / 5 + 1
  let mm : Nat := if mp < 10 then mp + 3 else mp - 9
  { y := (yy + (if mm ≤ 2 then 1 else 0)).toNat, m := mm, d := dd }

/-- Embedding of `date - timedelta(days=n)`. -/
def subDays (dt : Date) (n : Nat) : Date :=
  ofDays (toDays dt - (n : Int))

/-- Embedding of `strftime('%Y%m%d')`. -/
def fmtYmd8 (dt : Date) : String :=
  padNum 4 dt.y ++ padNum 2 dt.m ++ padNum 2 dt.d

/-- Embedding of `strftime('%Y-%m-%d')`. -/
def fmtIso (dt : Date) : String :=
  padNum 4 dt.y ++ "-" ++ padNum 2 dt.m ++ "-" ++ padNum 2 dt.d

/-- Embedding of `datetime.replace(year=y2)`: `none` models the `ValueError` raised
when the resulting date does not exist. -/
def replaceYear (dt : Date) (y2 : Nat) : Option Date :=
  let r : Date := { y := y2, m := dt.m, d := dt.d }
  if validDate r then some r else none

/-! ### `datetime.strptime`

Python's `_strptime` compiles each directive to a regex; the relevant
ones are `%Y ↦ \d\d\d\d`, `%m ↦ 1[0-2]|0[1-9]|[1-9]`,
`%d ↦ 3[01]|[12]\d|0[1-9]|[1-9]`, `%H ↦ 2[0-3]|[0-1]\d|\d`,
`%M ↦ [0-5]\d|\d`, `%S ↦ 6[0-1]|[0-5]\d|\d`; whitespace in the format
matches `\s+`; the whole string must be consumed; the parsed fields are
then validated by the `datetime` constructor (`ValueError` on an
impossible date, which every caller catches and treats as
parse failure).  Each field below lists its (at most two) regex
alternatives in alternation order, and the format runner backtracks
through them exactly as the regex engine does. -/

def year4 : List Char → Option (Nat × List Char)
  | a :: b :: c :: d :: rest =>
    if isDig a && isDig b && isDig c && isDig d then
      some (digVal a * 1000 + digVal b * 100 + digVal c * 10 + digVal d, rest)
    else none
  | _ => none

def monthCands : List Char → List (Nat × List Char)
  | [] => []
  | [c1] => if '1' ≤ c1 && c1 ≤ '9' then [(digVal c1, [])] else []
  | c1 :: c2 :: rest =>
    let two :=
      if c1 = '1' && '0' ≤ c2 && c2 ≤ '2' then [(10 + digVal c2, rest)]
      else if c1 = '0' && '1' ≤ c2 && c2 ≤ '9' then [(digVal c2, rest)]
      else []
    let one := if '1' ≤ c1 && c1 ≤ '9' then [(digVal c1, c2 :: rest)] else []
    two ++ one

def dayCands : List Char → List (Nat × List Char)
  | [] => []
  | [c1] => if '1' ≤ c1 && c1 ≤ '9' then [(digVal c1, [])] else []
  | c1 :: c2 :: rest =>
    let two :=
      if c1 = '3' && '0' ≤ c2 && c2 ≤ '1' then [(30 + digVal c2, rest)]
      else if ('1' ≤ c1 && c1 ≤ '2') && isDig c2 then
        [(digVal c1 * 10 + digVal c2, rest)]
      else if c1 = '0' && '1' ≤ c2 && c2 ≤ '9' then [(digVal c2, rest)]
      else []
    let one := if '1' ≤ c1 && c1 ≤ '9' then [(digVal c1, c2 :: rest)] else []
    two ++ one

def hourCands : List Char → List (Nat × List Char)
  | [] => []
  | [c1] => if isDig c1 then [(digVal c1, [])] else []
  | c1 :: c2 :: rest =>
    let two :=
      if c1 = '2' && '0' ≤ c2 && c2 ≤ '3' then [(20 + digVal c2, rest)]
      else if ('0' ≤ c1 && c1 ≤ '1') && isDig c2 then
        [(digVal c1 * 10 + digVal c2, rest)]
      else []
    let one := if isDig c1 then [(digVal c1, c2 :: rest)] else []
    two ++ one

def minuteCands : List Char → List (Nat × List Char)
  | [] => []
  | [c1] => if isDig c1 then [(digVal c1, [])] else []
  | c1 :: c2 :: rest =>
    let two :=
      if ('0' ≤ c1 && c1 ≤ '5') && isDig c2 then
        [(digVal c1 * 10 + digVal c2, rest)]
      else []
    let one := if isDig c1 then [(digVal c1, c2 :: rest)] else []
    two ++ one

def secondCands : List Char → List (Nat × List Char)
  | [] => []
  | [c1] => if isDig c1 then [(digVal c1, [])] else []
  | c1 :: c2 :: rest =>
    let two :=
      if c1 = '6' && '0' ≤ c2 && c2 ≤ '1' then [(60 + digVal c2, rest)]
      else if ('0' ≤ c1 && c1 ≤ '5') && isDig c2 then
        [(digVal c1 * 10 + digVal c2, rest)]
      else []
    let one := if isDig c1 then [(digVal c1, c2 :: rest)] else []
    two ++ one

/-- Embedding of `\s+`: at least one whitespace character. -/
def skipWs1 (cs : List Char) : Option (List Char) :=
  match cs with
  | c :: rest => if isWsC c then some (rest.dropWhile isWsC) else none
  | [] => none

/-- Format directives appearing in the repository's format strings. -/
inductive FTok
  | year | month | day | hour | minute | second
  | lit (c : Char)
  | ws
deriving DecidableEq

/-- The fields `strptime` fills in (its defaults are 1900-01-01 00:00:00). -/
structure PDT where
  y : Nat
  m : Nat
  d : Nat
  h : Nat
  mi : Nat
  s : Nat
deriving DecidableEq, Repr

def pdtDefault : PDT := ⟨1900, 1, 1, 0, 0, 0⟩

def runFToks : List FTok → List Char → PDT → Option PDT
  | [], [], acc => some acc
  | [], _ :: _, _ => none
  | t :: ts, cs, acc =>
    match t with
    | .lit c =>
      match cs with
      | c2 :: r => if c2 = c then runFToks ts r acc else none
      | [] => none
    | .ws =>
      match skipWs1 cs with
      | some r => runFToks ts r acc
      | none => none
    | .year =>
      match year4 cs with
      | some (v, r) => runFToks ts r { acc with y := v }
      | none => none
    | .month =>
      match monthCands cs with
      | [] => none
      | [(v, r)] => runFToks ts r { acc with m := v }
      | (v1, r1) :: (v2, r2) :: _ =>
        match runFToks ts r1 { acc with m := v1 } with
        | some res => some res
        | none => runFToks ts r2 { acc with m := v2 }
    | .day =>
      match dayCands cs with
      | [] => none
      | [(v, r)] => runFToks ts r { acc with d := v }
      | (v1, r1) :: (v2, r2) :: _ =>
        match runFToks ts r1 { acc with d := v1 } with
        | some res => some res
        | none => runFToks ts r2 { acc with d := v2 }
    | .hour =>
      match hourCands cs with
      | [] => none
      | [(v, r)] => runFToks ts r { acc with h := v }
      | (v1, r1) :: (v2, r2) :: _ =>
        match runFToks ts r1 { acc with h := v1 } with
        | some res => some res
        | none => runFToks ts r2 { acc with h := v2 }
    | .minute =>
      match minuteCands cs with
      | [] => none
      | [(v, r)] => runFToks ts r { acc with mi := v }
      | (v1, r1) :: (v2, r2) :: _ =>
        match runFToks ts r1 { acc with mi := v1 } with
        | some res => some res
        | none => runFToks ts r2 { acc with mi := v2 }
    | .second =>
      match secondCands cs with
      | [] => none
      | [(v, r)] => runFToks ts r { acc with s := v }
      | (v1, r1) :: (v2, r2) :: _ =>
        match runFToks ts r1 { acc with s := v1 } with
        | some res => some res
        | none => runFToks ts r2 { acc with s := v2 }

/-- The `datetime` constructor's range validation. -/
def validatePdt (p : PDT) : Option PDT :=
  if validDate ⟨p.y, p.m, p.d⟩ && p.h ≤ 23 && p.mi ≤ 59 && p.s ≤ 59 then
    some p
  else none

/-- Embedding of `datetime.strptime(s, fmt)` as `Option` (callers catch `ValueError`). -/
def strptimeF (toks : List FTok) (s : String) : Option PDT :=
  (runFToks toks s.data pdtDefault).bind validatePdt

def fmtToksDash : List FTok := [.year, .lit '-', .month, .lit '-', .day]
def fmtToksCompact : List FTok := [.year, .month, .day]
def fmtToksSlash : List FTok := [.year, .lit '/', .month, .lit '/', .day]
def fmtToksDot : List FTok := [.year, .lit '.', .month, .lit '.', .day]
def fmtToksCn : List FTok := [.year, .lit '年', .month, .lit '月', .day, .lit '日']

def pdtToDate (p : PDT) : Date := ⟨p.y, p.m, p.d⟩

/-- Embedding of `ResultManager._parse_date` (also `analysis_nodes._parse_date`):
tries `%Y-%m-%d`, `%Y%m%d`, `%Y/%m/%d`, `%Y.%m.%d`, `%Y年%m月%d日`
in order, `none` when all raise. -/
def parseDateRM (s : String) : Option Date :=
  (firstSome [fmtToksDash, fmtToksCompact, fmtToksSlash, fmtToksDot, fmtToksCn]
    (fun toks => strptimeF toks s)).map pdtToDate

/-- The format loop inside `TushareProvider._get_date_range`:
`['%Y%m%d', '%Y-%m-%d', '%Y/%m/%d']` in order. -/
def parseDateTushare (s : String) : Option Date :=
  (firstSome [fmtToksCompact, fmtToksDash, fmtToksSlash]
    (fun toks => strptimeF toks s)).map pdtToDate

/-- Embedding of `datetime.strptime(end_date, '%Y%m%d')` as used by the empty-table
branch of `stock_tools._process_data_type` and friends. -/
def parseYmd8Strict (s : String) : Option Date :=
  (strptimeF fmtToksCompact s).map pdtToDate

/-! ### C1: the trailing analysis window -/

/-- Embedding of `TushareProvider._get_date_range(end_date, years)`
(`src/tools/tushare_provider.py`; `AkshareProvider._get_date_range` and
`TinyshareProvider._get_date_range` compute the start date the same
way).  `today` stands for `datetime.now()`, used when `end_date` is
absent or unparseable.  The start date is
`end_date_dt - timedelta(days=365 * years)`. -/
def tushare_get_date_range (today : Date) (end_date : Option String)
    (years : Nat) : String × String :=
  let endDt : Date :=
    match end_date with
    | none => today
    | some s => (parseDateTushare s).getD today
  let startDt := subDays endDt (365 * years)
  (fmtYmd8 startDt, fmtYmd8 endDt)

/-- Embedding of `ResultManager._get_analysis_period(end_date)`
(`src/core/result_manager.py`; `analysis_nodes._get_analysis_period`
is the same computation): parses `end_date`, then
`start_dt = end_dt.replace(year=end_dt.year - 2)`; any exception
(unparseable date, or `replace` landing on a nonexistent date such as a
Feb 29 of a common year) falls back to the fixed string. -/
def get_analysis_period (end_date : Option String) : String :=
  match end_date with
  | none => "近两年数据"
  | some s =>
    if s = "" then "近两年数据"
    else
      match parseDateRM s with
      | none => "近两年数据"
      | some e =>
        match replaceYear e (e.y - 2) with
        | none => "近两年数据"
        | some st => fmtIso st ++ " 至 " ++ fmtIso e

/-! ### C2: artifact paths written by one run

`ResultManager` puts every artifact at
`<base_dir>/<stock_code>/<date>/<filename>`; the stock directory is the
verbatim symbol, so an artifact is identified below by its
`(date directory, filename)` pair. -/

/-- The date component chosen by `ResultManager._get_date_dir`:
parse `end_date` with `_parse_date` and format `%Y%m%d`; on a missing
or unparseable date use `datetime.now()` (`today`). -/
def date_dir_str (today : Date) (end_date : Option String) : String :=
  match end_date with
  | none => fmtYmd8 today
  | some s =>
    if s = "" then fmtYmd8 today
    else
      match parseDateRM s with
      | some e => fmtYmd8 e
      | none => fmtYmd8 today

/-- Embedding of `ResultManager.save_report`: filename is
`(report_name or report_type + "_report") + ".json"`. -/
def save_report_artifact (today : Date) (report_type : String)
    (report_name : Option String) (end_date : Option String) :
    String × String :=
  (date_dir_str today end_date,
   (report_name.getD (report_type ++ "_report")) ++ ".json")

/-- Embedding of `ResultManager.save_tool_result`: filename is
`tool_name + "_tool_result.json"`. -/
def save_tool_result_artifact (today : Date) (tool_name : String)
    (end_date : Option String) : String × String :=
  (date_dir_str today end_date, tool_name ++ "_tool_result.json")

/-- The `(date directory, filename)` pairs written by one run of the
compiled graph for a fixed symbol (writes listed in schedule order;
later duplicates overwrite).  Sources: the five analyst nodes and
`run_supervisor` in `src/graph/nodes/analysis_nodes.py`, the tool
writes in `src/tools/stock_tools.py` (`get_fundamental_data` saves tool
name `fundamental_data`, `get_tech_data` saves `tech_data`, `get_news`
saves `news_data`, `get_fund_data` saves `fund_data`; on a fresh run
`run_news_analysis`'s preliminary `load_news_data` finds nothing — no
`news_sentiment*` artifact is ever written — so `get_news` runs), and
`final_result_save` in `src/graph/main_graph.py`
(`save_all_reports` re-saves the six reports present in the state with
`report_name=None`, then `save_report(stock_code, "summary", summary,
"analysis_summary")` is called without `end_date`, so the summary lands
in the current date's directory). -/
def run_artifacts (today : Date) (end_date : String) :
    List (String × String) :=
  [ save_tool_result_artifact today "fundamental_data" (some end_date),
    save_report_artifact today "fundamental" (some "fundamental_report") (some end_date),
    save_tool_result_artifact today "tech_data" (some end_date),
    save_report_artifact today "technical" (some "technical_report") (some end_date),
    save_tool_result_artifact today "news_data" (some end_date),
    save_report_artifact today "news" (some "news_report") (some end_date),
    save_tool_result_artifact today "sentiment_input" (some end_date),
    save_report_artifact today "sentiment" (some "sentiment_report") (some end_date),
    save_tool_result_artifact today "fund_data" (some end_date),
    save_report_artifact today "fund" (some "fund_report") (some end_date),
    save_report_artifact today "supervisor" (some "supervisor_report") (some end_date),
    save_report_artifact today "fundamental" none (some end_date),
    save_report_artifact today "technical" none (some end_date),
    save_report_artifact today "sentiment" none (some end_date),
    save_report_artifact today "news" none (some end_date),
    save_report_artifact today "fund" none (some end_date),
    save_report_artifact today "supervisor" none (some end_date),
    save_report_artifact today "summary" (some "analysis_summary") none ]

/-! ### JSON values (for `json.loads` results and saved payloads) -/

inductive JVal where
  | jnull
  | jbool (b : Bool)
  | jnum (n : Int)
  | jstr (s : String)
  | jarr (l : List JVal)
  | jobj (l : List (String × JVal))
deriving Repr

/-- Python truthiness of a JSON value. -/
def jTruthy : JVal → Bool
  | .jnull => false
  | .jbool b => b
  | .jnum n => n ≠ 0
  | .jstr s => s ≠ ""
  | .jarr l => !l.isEmpty
  | .jobj l => !l.isEmpty

/-- Embedding of `dict.get(k)` on a JSON object's key/value list. -/
def jget (l : List (String × JVal)) (k : String) : Option JVal :=
  (l.find? (fun p => p.1 = k)).map Prod.snd

/-! ### C3: what the Supervisor reads back as the news summary

The artifact store for one `(symbol, end_date)` directory is modelled
as the list of `tool_name ↦ saved payload` pairs
(`load_tool_result` looks up `<tool_name>_tool_result.json` there). -/

/-- The envelope `ResultManager.save_tool_result` writes when the tool
result is already structured (a dict or list): `tool`, `timestamp`,
`analysis_period`, and the result under `data`. -/
def save_tool_result_payload (tool_name timestamp analysis_period : String)
    (tool_result : JVal) : JVal :=
  .jobj [("tool", .jstr tool_name), ("timestamp", .jstr timestamp),
         ("analysis_period", .jstr analysis_period), ("data", tool_result)]

/-- Embedding of `ResultManager.load_tool_result(stock_code, tool_name, end_date)`:
`None` when the file does not exist. -/
def load_tool_result (store : List (String × JVal)) (tool_name : String) :
    Option JVal :=
  jget store tool_name

/-- Embedding of `ResultManager.load_news_data`: prefers the tool result named
`news_sentiment_structured` (kept only if its `data` field is truthy),
then `news_sentiment`, else `None`.  A non-dict structured payload
would make `.get` raise, caught to `None`. -/
def load_news_data (store : List (String × JVal)) : Option JVal :=
  let basic : Option JVal :=
    match load_tool_result store "news_sentiment" with
    | some v => if jTruthy v then some v else none
    | none => none
  match load_tool_result store "news_sentiment_structured" with
  | some (.jobj l) =>
    if ((jget l "data").getD .jnull |> jTruthy) then some (.jobj l) else basic
  | some v => if jTruthy v then none else basic
  | none => basic

/-- The news summary `run_supervisor` feeds to the LLM
(`src/graph/nodes/analysis_nodes.py`): start from `""`; if
`load_news_data` gives a dict, take its top-level `combined_summary`
if truthy, else its top-level `result` if truthy; a plain string is
used as-is. -/
def supervisor_news_summary (store : List (String × JVal)) : JVal :=
  match load_news_data store with
  | some (.jobj l) =>
    let cs := (jget l "combined_summary").getD .jnull
    if jTruthy cs then cs
    else
      let rs := (jget l "result").getD .jnull
      if jTruthy rs then rs else .jstr ""
  | some (.jstr s) => .jstr s
  | _ => .jstr ""

/-- The `final_result` dict `get_news` persists under tool name
`news_data` (`src/tools/stock_tools.py`): `analysis_type`,
`combined_summary`, `interfaces`, `summary`. -/
def get_news_final_result (overall : String)
    (interfaces : List (String × JVal)) (total ok err : Int) : JVal :=
  .jobj [("analysis_type", .jstr "新闻数据分析"),
         ("combined_summary", .jstr overall),
         ("interfaces", .jobj interfaces),
         ("summary", .jobj [("total_interfaces", .jnum total),
                            ("successful_interfaces", .jnum ok),
                            ("error_interfaces", .jnum err)])]

/-! ### C4: the adaptive token budgeter
(`DataProcessor._calc_batch_char_cap` and
`DataProcessor._batch_strings_by_chars`, `src/core/data_processor.py`) -/

def isCJK (c : Char) : Bool := 0x4e00 ≤ c.toNat && c.toNat ≤ 0x9fff

def cjkCount (s : String) : Nat := (s.data.filter isCJK).length

/-- Embedding of `_cjk_ratio(sample) >= 0.2` in exact arithmetic:
`cjk / max(total, 1) ≥ 1/5`. -/
def cjk_heavy (s : String) : Bool := max s.length 1 ≤ 5 * cjkCount s

/-- Embedding of `_calc_batch_char_cap`.  The input ratio is an exact rational
`rN / rD` (callers pass 0.55, 0.60 or 0.65); `chars_per_token` is
`1.0` for CJK-heavy samples and `3.2` otherwise, and the `0.95` safety
factor is `95/100`; `int(...)` on the nonnegative products is floor
division.  `input_token_budget` is clamped below at `8000` before the
subtraction can matter, so `Nat` truncation agrees with Python's `max`
over possibly negative ints. -/
def calc_batch_char_cap (sample_parts : List String)
    (model_max_tokens rN rD prompt_tokens output_tokens : Nat) : Nat :=
  let sample := joinNL (sample_parts.take 20)
  let chars_per_token_is_one := cjk_heavy sample
  let input_token_budget :=
    max (model_max_tokens * rN / rD - prompt_tokens - output_tokens) 8000
  let cap :=
    if chars_per_token_is_one then input_token_budget * 10 * 95 / (10 * 100)
    else input_token_budget * 32 * 95 / (10 * 100)
  max (min cap 38000) 4000

/-- One iteration of the packing loop in `_batch_strings_by_chars`:
state is `(batches, buf, cur)`.  An empty buffer always absorbs the
item (even when the item alone exceeds `max_chars`); otherwise the item
joins the buffer only when `cur + 2 + len(p) ≤ max_chars` (`+2` for the
`"\n\n"` separator); otherwise the buffer is flushed. -/
def batch_step (max_chars : Nat) :
    List String × List String × Nat → String →
    List String × List String × Nat
  | (batches, buf, cur), p =>
    if buf.isEmpty then (batches, [p], p.length)
    else if cur + 2 + p.length ≤ max_chars then
      (batches, buf ++ [p], cur + 2 + p.length)
    else (batches ++ [joinNN buf], [p], p.length)

/-- Embedding of `_batch_strings_by_chars(parts, max_chars, min_pack_chars)`.
The `min_pack_chars` branch in the source is dead code (its body is
`pass` under a comment saying control cannot reach it), so the
parameter does not influence the result. -/
def batch_strings_by_chars (parts : List String)
    (max_chars min_pack_chars : Nat) : List String :=
  let st := parts.foldl (batch_step max_chars) ([], [], 0)
  if st.2.1.isEmpty then st.1 else st.1 ++ [joinNN st.2.1]

/-! ### C5 / C10: interface results assembled by the stock tools
(`src/tools/stock_tools.py`) -/

/-- The four diagnostic substrings the collectors scan summaries for. -/
def diagSubstrings : List String :=
  ["生成报告时出错", "生成摘要时出错", "数据获取失败", "Error code:"]

/-- The `{"summary": ..., "raw": ...}` payload a worker
(`_process_data_type`, `_process_tech_data_with_llm`,
`_process_fund_data_with_llm`, `_process_news_data_with_llm`) returns. -/
structure Payload where
  summary : String
  raw : List JVal
deriving Repr

structure InterfaceResult where
  objective : String
  result : String
  raw : List JVal
  status : String
deriving Repr

/-- The collector entry built in `get_fundamental_data` (the loops in
`get_tech_data`, `get_fund_data` and `get_news` are textually
identical): `status` is `"success"` iff no diagnostic substring occurs
in the summary. -/
def mkInterfaceResult (objective : String) (payload : Payload) :
    InterfaceResult :=
  { objective := objective
    result := payload.summary
    raw := payload.raw
    status :=
      if diagSubstrings.any (fun d => containsSub payload.summary d) then
        "error"
      else "success" }

/-- The `date_range` computed by the empty-table branch of
`_process_data_type`: `strptime(end_date, '%Y%m%d')`, then
`end - timedelta(days=365*2)`, formatted `"{start}到{end}"`; a
`ValueError` gives the fixed phrase, a missing/falsy `end_date` the
other fixed phrase. -/
def empty_date_range (end_date : Option String) : String :=
  match end_date with
  | none => "近两年"
  | some s =>
    if s = "" then "近两年"
    else
      match parseYmd8Strict s with
      | some e => fmtYmd8 (subDays e 730) ++ "到" ++ s
      | none => "指定日期范围内"

/-- The summary `_process_data_type` returns for an empty table
(valid call, no rows): the generic sentence, with extra explanations
for `moneyflow_cnt_ths` and `moneyflow_hsgt`. -/
def process_data_type_empty_summary (dtype objective : String)
    (end_date : Option String) : String :=
  let dr := empty_date_range end_date
  if dtype = "moneyflow_cnt_ths" then
    "【" ++ objective ++ "】: 在" ++ dr ++ "之间" ++ objective ++
      "数据为空。板块主力动向数据通常有1-2天延迟，建议查询前一个交易日的数据。"
  else if dtype = "moneyflow_hsgt" then
    "【" ++ objective ++ "】: 在" ++ dr ++ "之间" ++ objective ++
      "数据为空。北向资金数据通常有1天延迟，建议查询前一个交易日的数据。"
  else
    "【" ++ objective ++ "】: 在" ++ dr ++ "之间" ++ objective ++ "数据为空"

/-- Embedding of `_process_data_type`'s return value on the empty-table path. -/
def process_data_type_empty (dtype objective : String)
    (end_date : Option String) : Payload :=
  { summary := process_data_type_empty_summary dtype objective end_date
    raw := [] }

/-- Embedding of `data_objectives` in `get_fundamental_data`. -/
def fundamental_data_objectives : List (String × String) :=
  [("fina_indicator", "盈利能力与财务指标"),
   ("daily_basic", "每日估值水平"),
   ("dividend", "股东分红回报"),
   ("income", "营业收入与利润构成"),
   ("balance", "资产与负债结构"),
   ("cashflow", "现金流量质量"),
   ("forecast", "未来业绩预期"),
   ("mainbz", "主营业务构成")]

/-- The empty-table date text computed by the three `_with_llm` workers
(`_process_fund_data_with_llm`, `_process_tech_data_with_llm`,
`_process_news_data_with_llm`): `strptime(end_date, '%Y%m%d')`, then
`end - timedelta(days=windowDays)`, rendered as
`"{start}到{end}之间"`; a `ValueError` gives the fixed phrase, a
missing/falsy `end_date` the family's own fixed phrase `noneTxt`
(`"近两年内"` for fund/tech, `"近3天内"` for news). -/
def worker_empty_range (windowDays : Nat) (noneTxt : String)
    (end_date : Option String) : String :=
  match end_date with
  | none => noneTxt
  | some s =>
    if s = "" then noneTxt
    else
      match parseYmd8Strict s with
      | some e => fmtYmd8 (subDays e windowDays) ++ "到" ++ s ++ "之间"
      | none => "指定日期范围内"

/-- The summary text of the empty-table payload the three `_with_llm`
workers return: the objective repeated around the date text. -/
def process_worker_empty_summary (objective : String) (windowDays : Nat)
    (noneTxt : String) (end_date : Option String) : String :=
  "【" ++ objective ++ "】: " ++
    worker_empty_range windowDays noneTxt end_date ++ objective ++ "数据为空"

/-- The shared shape of the empty-table payload the three `_with_llm`
workers return: the summary text above and an empty raw list. -/
def process_worker_empty (objective : String) (windowDays : Nat)
    (noneTxt : String) (end_date : Option String) : Payload :=
  { summary := process_worker_empty_summary objective windowDays noneTxt end_date
    raw := [] }

/-- Embedding of `_process_fund_data_with_llm`'s empty-table return
value: a 730-day window (`timedelta(days=365 * 2)`), fallback
`"近两年内"`. -/
def process_fund_empty (objective : String) (end_date : Option String) :
    Payload :=
  process_worker_empty objective 730 "近两年内" end_date

/-- Embedding of `_process_tech_data_with_llm`'s empty-table return
value: a 730-day window, fallback `"近两年内"`. -/
def process_tech_empty (objective : String) (end_date : Option String) :
    Payload :=
  process_worker_empty objective 730 "近两年内" end_date

/-- Embedding of `_process_news_data_with_llm`'s empty-table return
value: a 3-day window (`timedelta(days=3)`), fallback `"近3天内"`. -/
def process_news_empty (objective : String) (end_date : Option String) :
    Payload :=
  process_worker_empty objective 3 "近3天内" end_date

/-- Embedding of `fund_data_objectives` in `get_fund_data`. -/
def fund_data_objectives : List (String × String) :=
  [("top10_holders", "前十大股东持股情况"),
   ("top10_floatholders", "前十大流通股东持股情况"),
   ("stk_holdernumber", "股东人数"),
   ("moneyflow_ths", "个股主力动向"),
   ("moneyflow_cnt_ths", "板块主力动向"),
   ("moneyflow_ind_ths", "行业主力动向"),
   ("moneyflow_mkt_dc", "大盘资金流向"),
   ("moneyflow_ind_dc", "板块资金流向"),
   ("top_list", "龙虎榜每日统计"),
   ("top_inst", "龙虎榜机构明细"),
   ("moneyflow_hsgt", "北向资金"),
   ("cyq_perf", "每日筹码分布")]

/-- Embedding of `tech_data_objectives` in `get_tech_data`. -/
def tech_data_objectives : List (String × String) :=
  [("pro_bar_D", "短期（日线K线与均线走势）"),
   ("pro_bar_W", "中期（周线K线与均线走势）"),
   ("pro_bar_M", "长期（月线K线与均线走势）"),
   ("stk_factor", "技术指标（MACD/RSI/KDJ等）"),
   ("daily_basic", "估值与成交特征"),
   ("limit_list", "涨跌停与市场情绪")]

/-- Embedding of `news_data_objectives` in `get_news`. -/
def news_data_objectives : List (String × String) :=
  [("news", "快讯新闻分析"),
   ("major_news", "重要新闻分析"),
   ("cctv_news", "央视新闻分析")]

/-! ### C9: keyword sentiment (`crawler._simple_cn_sentiment`) -/

/-- Embedding of `DEFAULT_NEWS_CFG["pos_words"]`. -/
def default_pos_words : List String :=
  ["增持", "回购", "超预期", "上调", "利好", "签约", "中标", "获批", "突破",
   "增长", "创新高", "涨停", "提价", "盈利改善", "产能扩张", "政策支持",
   "订单充足"]

/-- Embedding of `DEFAULT_NEWS_CFG["neg_words"]`. -/
def default_neg_words : List String :=
  ["减持", "限售解禁", "下调", "利空", "亏损", "违规", "问询函", "处罚",
   "被调查", "下滑", "爆雷", "停牌", "诉讼", "资产减值", "延期", "产线停工",
   "业绩预亏"]

/-- Embedding of `_simple_cn_sentiment(text)` with the word lists taken from the
(hot-reloadable) config: `pos`/`neg` are **boolean presence** tests
(`any(w in t ...)`), not hit counts. -/
def simple_cn_sentiment (pos_words neg_words : List String)
    (text : String) : String :=
  let pos := pos_words.any (fun w => containsSub text w)
  let neg := neg_words.any (fun w => containsSub text w)
  if pos && !neg then "正面"
  else if neg && !pos then "负面"
  else "中性"

/-- Number of words of `words` occurring in `text` (the "word hits"
count the spec's scoring rule speaks about). -/
def word_hits (words : List String) (text : String) : Nat :=
  (words.filter (fun w => containsSub text w)).length

/-! ### C6: the streaming generator's frame sequence
(`stream_analysis_generator`, `src/api/impl_stock.py`) -/

structure Frame where
  event_type : String
  thread_id : String
  agent : String
  id : String
  content : String
  finish_reason : Option String
deriving DecidableEq, Repr

/-- The frame yielded by the `except` branch. -/
def error_frame (thread_id msg : String) : Frame :=
  { event_type := "message_chunk", thread_id := thread_id
    agent := "system_error", id := "error-run"
    content := "分析过程中出现严重错误: " ++ msg
    finish_reason := some "stop" }

/-- The frame yielded by the `finally` branch. -/
def final_frame (thread_id : String) : Frame :=
  { event_type := "message_chunk", thread_id := thread_id
    agent := "system", id := "final-run"
    content := "分析流程已结束。"
    finish_reason := some "stop" }

/-- The frame sequence `stream_analysis_generator` yields: the frames
produced by `format_event` inside the `try` body (`body` is the prefix
emitted before a possible exception), then — on the exception path —
the `system_error` frame, then in every case the terminal `system`
frame from the `finally` block. -/
def stream_frames (thread_id : String) (body : List Frame)
    (err : Option String) : List Frame :=
  body ++
    (match err with
     | some e => [error_frame thread_id e]
     | none => []) ++
    [final_frame thread_id]

/-! ### C7: `parsers.parse_analyst_report` (`src/tools/parsers.py`) -/

/-- Index of the first occurrence of `needle` in `hay` (`str.find`,
only used under a containment guard). -/
def occIdx (needle : List Char) : List Char → Nat → List Nat
  | hay, i =>
    (if isPrefixL needle hay then [i] else []) ++
      (match hay with
       | [] => []
       | _ :: tl => occIdx needle tl (i + 1))

def findSubIdx (hay needle : String) : Option Nat :=
  (occIdx needle.data hay.data 0).head?

def rfindSubIdx (hay needle : String) : Option Nat :=
  (occIdx needle.data hay.data 0).getLast?

/-- Python slice `s[a:b]` (for `0 ≤ a, b ≤ len`). -/
def sliceStr (s : String) (a b : Nat) : String :=
  ⟨(s.data.take b).drop a⟩

/-- Python `s[:n]`. -/
def takeStr (s : String) (n : Nat) : String := ⟨s.data.take n⟩

/-- The fence-stripping prelude of `parse_analyst_report`: strip the
content; if it contains a ` ```json ` marker take the slice between
`find('```json') + 7` and `rfind('```')` (or everything after the
marker when the two collapse), stripped; else the stripped content. -/
def extract_json_str (content : String) : String :=
  let cleaned := stripStr content
  if containsSub cleaned "```json" then
    let start_idx := (findSubIdx cleaned "```json").getD 0 + 7
    let end_idx := (rfindSubIdx cleaned "```").getD 0
    if start_idx < end_idx then stripStr (sliceStr cleaned start_idx end_idx)
    else stripStr (sliceStr cleaned start_idx cleaned.length)
  else cleaned

def required_analyst_fields : List String :=
  ["analyst_name", "viewpoint", "reason", "scores", "detailed_analysis"]

/-- The defaulting loop: each required field missing from the parsed
dict is appended with `""` (or `{}` for `scores`). -/
def default_fields (l : List (String × JVal)) : List (String × JVal) :=
  required_analyst_fields.foldl
    (fun acc f =>
      if (jget acc f).isSome then acc
      else acc ++ [(f, if f = "scores" then JVal.jobj [] else JVal.jstr "")])
    l

/-- The sentinel returned from the `except json.JSONDecodeError`
branch: the raw content truncated to 200 code points. -/
def json_fail_report (content : String) : JVal :=
  .jobj [("analyst_name", .jstr "分析失败"),
         ("viewpoint", .jstr "中性"),
         ("reason", .jstr "数据解析失败"),
         ("scores", .jobj []),
         ("detailed_analysis", .jstr ("解析失败: " ++ takeStr content 200 ++ "..."))]

/-- The sentinel returned from the generic `except Exception` branch
(reached when `json.loads` produced a non-dict and the field checks or
assignments raise `TypeError`; the interpolated exception text is
abbreviated here, no claim depends on it). -/
def generic_fail_report : JVal :=
  .jobj [("analyst_name", .jstr "分析失败"),
         ("viewpoint", .jstr "中性"),
         ("reason", .jstr "系统错误"),
         ("scores", .jobj []),
         ("detailed_analysis", .jstr "系统错误: (TypeError)")]

def jIsStrV (v : JVal) (f : String) : Bool :=
  match v with
  | .jstr s => s = f
  | _ => false

/-- Embedding of `parse_analyst_report(content)`, parameterised by the JSON parser
`jparse` standing for `json.loads` (`none` models
`json.JSONDecodeError`).  On a parsed dict the required fields are
defaulted; on non-dict JSON the `field not in report_data` test either
raises (ints, bools, null — `TypeError`, caught by the generic
handler), or is a substring/membership test (str/list) whose first
missing field makes the `report_data[field] = ...` assignment raise. -/
def parse_analyst_report (jparse : String → Option JVal)
    (content : String) : JVal :=
  let json_str := extract_json_str content
  match jparse json_str with
  | none => json_fail_report content
  | some (.jobj l) => .jobj (default_fields l)
  | some (.jstr s) =>
    if required_analyst_fields.all (fun f => containsSub s f) then .jstr s
    else generic_fail_report
  | some (.jarr l) =>
    if required_analyst_fields.all
        (fun f => l.any (fun v => jIsStrV v f)) then .jarr l
    else generic_fail_report
  | some _ => generic_fail_report

/-! ### C8: publish-time resolution for crawled news
(`src/tools/crawler.py`)

All times live in `CHINA_TZ = UTC+8`; a `DTime` value is the `UTC+8`
wall-clock time.  (Naive datetimes passed through
`astimezone(CHINA_TZ)` are taken at face value — the host timezone is
assumed to be `UTC+8`, the deployment this code targets.) -/

structure DTime where
  date : Date
  h : Nat
  mi : Nat
  s : Nat
deriving DecidableEq, Repr

def dtToMinutes (t : DTime) : Int :=
  toDays t.date * 1440 + t.h * 60 + t.mi

def dtOfMinutes (m : Int) : DTime :=
  let dayN := Int.fdiv m 1440
  let rem := (m - dayN * 1440).toNat
  { date := ofDays dayN, h := rem / 60, mi := rem % 60, s := 0 }

/-- Embedding of `base - timedelta(minutes=n)` (the bases in scope carry
`second = 0`). -/
def dtSubMinutes (t : DTime) (n : Nat) : DTime :=
  dtOfMinutes (dtToMinutes t - (n : Int))

/-- Embedding of `strftime("%Y-%m-%d %H:%M")`. -/
def fmtDTmin (t : DTime) : String :=
  fmtIso t.date ++ " " ++ padNum 2 t.h ++ ":" ++ padNum 2 t.mi

/-- Embedding of `datetime.fromtimestamp(secs, tz=CHINA_TZ)` for `secs ≥ 0`,
with the +8h shift already applied by the caller. -/
def unixEpochDT (secs : Nat) : DTime :=
  let days := secs / 86400
  let rem := secs % 86400
  { date := ofDays (days : Int), h := rem / 3600, mi := rem % 3600 / 60,
    s := rem % 60 }

def digitsVal (cs : List Char) : Nat :=
  cs.foldl (fun a c => a * 10 + digVal c) 0

/-- One application of the pattern
`[\u3000\s]*发布时间[:：]\s*` at the head of the list (used by the
`re.sub` prelude of `_parse_any_dt_cn`). -/
def pubPrefixMatch (cs : List Char) : Option (List Char) :=
  match cs.dropWhile isWsC with
  | '发' :: '布' :: '时' :: '间' :: c :: r2 =>
    if c = ':' || c = '：' then some (r2.dropWhile isWsC) else none
  | _ => none

/-- Embedding of `re.sub(r"[\u3000\s]*发布时间[:：]\s*", "", s)`: scan left to
right replacing every match by the empty string.  A match consumes at
least five characters, so list-length fuel suffices. -/
def subPubTagAux : Nat → List Char → List Char
  | 0, l => l
  | _, [] => []
  | fuel + 1, c :: tl =>
    match pubPrefixMatch (c :: tl) with
    | some rest => subPubTagAux fuel rest
    | none => c :: subPubTagAux fuel tl

def subPubTag (cs : List Char) : List Char :=
  subPubTagAux cs.length cs

/-- The format list of `_parse_any_dt_cn`, in source order. -/
def anyDtFmts : List (List FTok) :=
  [fmtToksDash ++ [.ws, .hour, .lit ':', .minute, .lit ':', .second],
   fmtToksDash ++ [.ws, .hour, .lit ':', .minute],
   fmtToksSlash ++ [.ws, .hour, .lit ':', .minute],
   fmtToksDot ++ [.ws, .hour, .lit ':', .minute],
   fmtToksDash, fmtToksSlash, fmtToksDot,
   fmtToksCn ++ [.ws, .hour, .lit ':', .minute],
   fmtToksCn]

/-- Embedding of `\d{1,2}` alternatives, greedy order (two digits first). -/
def digits12 : List Char → List (List Char × List Char)
  | [] => []
  | [a] => if isDig a then [([a], [])] else []
  | a :: b :: r =>
    (if isDig a && isDig b then [([a, b], r)] else []) ++
      (if isDig a then [([a], b :: r)] else [])

/-- Embedding of `\d{2}`. -/
def digits2 : List Char → Option (List Char × List Char)
  | a :: b :: r => if isDig a && isDig b then some ([a, b], r) else none
  | _ => none

def isDashSlashDot (c : Char) : Bool := c = '-' || c = '/' || c = '.'

/-- The optional trailing time group
`(?:[ T]\d{1,2}:\d{2}(?::\d{2})?)?` of the date-fragment pattern:
alternatives `(matched, rest)` in greedy preference order, ending with
the empty match. -/
def fragTimeOpts (cs : List Char) : List (List Char × List Char) :=
  (match cs with
   | st :: r1 =>
     if st = ' ' || st = 'T' then
       (digits12 r1).flatMap (fun hh =>
         match hh.2 with
         | ':' :: r3 =>
           match digits2 r3 with
           | some (mm, r4) =>
             (match r4 with
              | ':' :: r5 =>
                match digits2 r5 with
                | some (ss, r6) =>
                  [([st] ++ hh.1 ++ [':'] ++ mm ++ [':'] ++ ss, r6)]
                | none => []
              | _ => []) ++
               [([st] ++ hh.1 ++ [':'] ++ mm, r4)]
           | none => []
         | _ => [])
     else []
   | [] => []) ++ [([], cs)]

/-- Match of the (correctly escaped) date-fragment pattern from the
bottom of `_parse_any_dt_cn`: `20` then `\d{2}`, a separator from the
class {`-`, `/`, `.`}, `\d{1,2}`, the same separator class, `\d{1,2}`,
then the optional time group; anchored at the head of the list,
returning the matched characters (regex backtracking via candidate
order). -/
def fragAt (cs : List Char) : Option (List Char) :=
  match cs with
  | '2' :: '0' :: a :: b :: r1 =>
    if isDig a && isDig b then
      match r1 with
      | s1 :: r2 =>
        if isDashSlashDot s1 then
          firstSome (digits12 r2) (fun mo =>
            match mo.2 with
            | s2 :: r4 =>
              if isDashSlashDot s2 then
                firstSome (digits12 r4) (fun dd =>
                  match fragTimeOpts dd.2 with
                  | t :: _ =>
                    some (['2', '0', a, b, s1] ++ mo.1 ++ [s2] ++ dd.1 ++ t.1)
                  | [] => none)
              else none
            | [] => none)
        else none
      | [] => none
    else none
  | _ => none

/-- Embedding of `re.search` for the date fragment: leftmost match. -/
def findFrag : List Char → Option (List Char)
  | [] => none
  | c :: tl =>
    match fragAt (c :: tl) with
    | some m => some m
    | none => findFrag tl

/-- Embedding of `_parse_any_dt_cn(s)`: strip, drop `发布时间:` prefixes, try the
nine formats, then a 10–13 digit unix timestamp, then recurse on an
embedded date fragment.  `fuel` bounds the fragment recursion (Python
recurses unboundedly; depth 1 suffices on every input on which Python
terminates). -/
def parse_any_dt_cn : Nat → String → Option DTime
  | fuel, s0 =>
    if s0 = "" then none
    else
      let s1 := stripStr s0
      let s : String := ⟨subPubTag s1.data⟩
      match firstSome anyDtFmts (fun toks => strptimeF toks s) with
      | some p => some ⟨⟨p.y, p.m, p.d⟩, p.h, p.mi, p.s⟩
      | none =>
        if 10 ≤ s.data.length && s.data.length ≤ 13 && s.data.all isDig then
          let ts := digitsVal s.data
          let msec := if s.data.length = 10 then ts * 1000 else ts
          some (unixEpochDT (msec / 1000 + 8 * 3600))
        else
          match findFrag s.data with
          | some frag =>
            match fuel with
            | 0 => none
            | fuel' + 1 => parse_any_dt_cn fuel' ⟨frag⟩
          | none => none

def parseAnyDtCn (s : String) : Option DTime := parse_any_dt_cn 8 s

/-- Python `\w` restricted to the character repertoire exercised here
(ASCII word characters and CJK ideographs). -/
def isWordC (c : Char) : Bool := c.isAlphanum || c = '_' || isCJK c

/-- Embedding of `_url_dt_dash_re`: a `/`, the year group `(20\d{2})`, a separator
from the class {`-`, `/`}, `(\d{1,2})`, the same separator class,
`(\d{1,2})`, then `(?:/|\b)`; anchored at the head of the list,
yielding the three groups. -/
def urlDashAt (cs : List Char) : Option (Nat × Nat × Nat) :=
  match cs with
  | '/' :: '2' :: '0' :: a :: b :: r1 =>
    if isDig a && isDig b then
      match r1 with
      | s1 :: r2 =>
        if s1 = '-' || s1 = '/' then
          firstSome (digits12 r2) (fun mo =>
            match mo.2 with
            | s2 :: r4 =>
              if s2 = '-' || s2 = '/' then
                firstSome (digits12 r4) (fun dd =>
                  let res := (2000 + digVal a * 10 + digVal b,
                              digitsVal mo.1, digitsVal dd.1)
                  match dd.2 with
                  | [] => some res
                  | c :: _ =>
                    if c = '/' || !isWordC c then some res else none)
              else none
            | [] => none)
        else none
      | [] => none
    else none
  | _ => none

/-- Embedding of `_url_dt_compact_re = /(20\d{2})(\d{2})(\d{2})(?:/|\b)` anchored at
the head. -/
def urlCompactAt (cs : List Char) : Option (Nat × Nat × Nat) :=
  match cs with
  | '/' :: '2' :: '0' :: a :: b :: m1 :: m2 :: d1 :: d2 :: r =>
    if isDig a && isDig b && isDig m1 && isDig m2 && isDig d1 && isDig d2 then
      let res := (2000 + digVal a * 10 + digVal b,
                  digVal m1 * 10 + digVal m2, digVal d1 * 10 + digVal d2)
      match r with
      | [] => some res
      | c :: _ => if c = '/' || !isWordC c then some res else none
    else none
  | _ => none

/-- Embedding of `re.search`: leftmost position where the anchored matcher fires. -/
def scanFirst {α : Type} (f : List Char → Option α) : List Char → Option α
  | [] => none
  | c :: tl =>
    match f (c :: tl) with
    | some x => some x
    | none => scanFirst f tl

/-- Embedding of `_parse_dt_from_url(url)`: try the dash pattern, then the compact
pattern; the matched groups feed `datetime(y, mo, d, 0, 0)`, whose
`ValueError` on an impossible date is caught by the `except` around
**both** attempts, so an invalid dash match returns `None` without
trying the compact pattern. -/
def parse_dt_from_url (url : String) : Option String :=
  if url = "" then none
  else
    match scanFirst urlDashAt url.data with
    | some (y, mo, d) =>
      if validDate ⟨y, mo, d⟩ then some (fmtIso ⟨y, mo, d⟩ ++ " 00:00")
      else none
    | none =>
      match scanFirst urlCompactAt url.data with
      | some (y, mo, d) =>
        if validDate ⟨y, mo, d⟩ then some (fmtIso ⟨y, mo, d⟩ ++ " 00:00")
        else none
      | none => none

/-- Embedding of `re.search(r"(\d+)\s*<unit>[前]?", text)`: leftmost digit run
followed by optional whitespace and the unit word; returns the numeric
group. -/
def relSearch (unit : List Char) : List Char → Option Nat
  | [] => none
  | c :: tl =>
    if isDig c then
      let run := (c :: tl).takeWhile isDig
      let rest := ((c :: tl).dropWhile isDig).dropWhile isWsC
      if isPrefixL unit rest then some (digitsVal run)
      else relSearch unit tl
    else relSearch unit tl

/-- Embedding of `_infer_relative_time(text, ref_dt)`: minutes, then hours, then
days, then months (30 days each), subtracted from the reference
(UTC+8) time and formatted to minute precision. -/
def infer_relative_time (text : String) (ref : DTime) : Option String :=
  if text = "" then none
  else
    match relSearch "分钟".data text.data with
    | some n => some (fmtDTmin (dtSubMinutes ref n))
    | none =>
      match relSearch "小时".data text.data with
      | some n => some (fmtDTmin (dtSubMinutes ref (60 * n)))
      | none =>
        match relSearch "天".data text.data with
        | some n => some (fmtDTmin (dtSubMinutes ref (1440 * n)))
        | none =>
          match relSearch "个月".data text.data with
          | some n => some (fmtDTmin (dtSubMinutes ref (43200 * n)))
          | none => none

/-- Embedding of `TIME_KEYS` from `crawler.py`. -/
def TIME_KEYS : List String :=
  ["datePublished", "dateModified", "pubdate", "publishdate",
   "published_time", "发布时间", "发表时间", "时间", "datetime",
   "content_time"]

/-- Step 1 of `_extract_publish_time_and_text`: the first `TIME_KEYS`
entry of the extracted JSON-LD-style dict whose stripped value parses;
an unparseable value falls through to the next key. -/
def schema_time (vals : List (String × String)) : Option String :=
  firstSome TIME_KEYS (fun k =>
    let v := stripStr (((vals.find? (fun p => p.1 = k)).map Prod.snd).getD "")
    if v = "" then none else (parseAnyDtCn v).map fmtDTmin)

/-- Step 3 of `_extract_publish_time_and_text` — the visible-text date
regex (`crawler.py` line 502) — is written in the source as a **raw**
string in which every intended `\d` and `\s` appears doubled as
backslash-backslash-d / backslash-backslash-s.  In a raw string each
doubled backslash is an escaped literal backslash, so the first
character class reads: escaped backslash, `-`, `/`, `.`, `年` — i.e. a
range from `\` (0x5C) down to `/` (0x2F).  An inverted range makes
`re.compile` raise `re.error: bad character range` (verified on
CPython), and the step sits inside `try: ... except Exception: pass`,
so the exception is swallowed and the visible-text fallback never
assigns a time.  The correctly escaped form of the same pattern exists
a few lines below in `_parse_any_dt_cn` (see `fragAt`), which is what
this one was evidently meant to be. -/
def visible_time_step (_page_md : String) : Option String := none

/-- The inverted range bounds of the broken class, for the record. -/
def visible_pattern_range_lo : Char := '\\'

def visible_pattern_range_hi : Char := '/'

/-- One crawled article as seen by the time-resolution code:
`schemaVals` is the JSON dict extracted from the page (restricted to
its string fields), `pageMd` the rendered page text, plus the listing
metadata. -/
structure Article where
  schemaVals : List (String × String)
  pageMd : String
  url : String
  title : String
  snippet : String

/-- Embedding of `_extract_publish_time_and_text`'s published-at result (successful
crawl): schema fields, then the visible-text regex (dead, see
`visible_time_step`), then the URL date. -/
def extract_publish_time (a : Article) : String :=
  let p1 := (schema_time a.schemaVals).getD ""
  let p2 := if p1 = "" then (visible_time_step a.pageMd).getD "" else p1
  if p2 = "" then (parse_dt_from_url a.url).getD "" else p2

/-- The per-item completion loop of `_process_news_with_crawl4ai`
(lines 704–723): the item's preliminary `published_at` is the URL date
recorded at collection time; a nonempty extraction result overwrites
it; the URL date is tried once more, then a relative phrase in
`snippet + " " + title` resolved against the request's `end_dt`. -/
def item_published_at (a : Article) (end_dt : DTime) : String :=
  let prelim := (parse_dt_from_url a.url).getD ""
  let pub := extract_publish_time a
  let v1 := if pub ≠ "" then pub else prelim
  let v2 := if v1 = "" then (parse_dt_from_url a.url).getD "" else v1
  if v2 = "" then (infer_relative_time (a.snippet ++ " " ++ a.title) end_dt).getD ""
  else v2

/-! ### Concrete run inputs and auxiliary predicates used by the
theorems below -/

/-- How `run_sentiment_analysis` reads the news combined summary back
(`analysis_nodes.py` lines 107–127): `load_tool_result(stock_code,
"news_data", end_date)`, then `data`'s `combined_summary` (top-level
fallback when `data` is not a dict).  This is the working counterpart
of the Supervisor's read path. -/
def sentiment_news_combined_summary (store : List (String × JVal)) : JVal :=
  match load_tool_result store "news_data" with
  | some (.jobj l) =>
    match (jget l "data").getD (.jobj []) with
    | .jobj dl => (jget dl "combined_summary").getD (.jstr "")
    | _ => (jget l "combined_summary").getD (.jstr "")
  | some (.jstr s) => .jstr s
  | _ => .jstr ""

/-- The artifact store of one completed run (symbol `000001.SZ`,
end-date `20250914`): exactly the five tool results the pipeline
writes, including the news `final_result` with its
`combined_summary`. -/
def run_store : List (String × JVal) :=
  [("fundamental_data",
    save_tool_result_payload "fundamental_data" "2025-09-14 10:00:00"
      "2023-09-14 至 2025-09-14"
      (.jobj [("analysis_type", .jstr "基本面数据分析")])),
   ("tech_data",
    save_tool_result_payload "tech_data" "2025-09-14 10:00:01"
      "2023-09-14 至 2025-09-14"
      (.jobj [("analysis_type", .jstr "技术数据分析")])),
   ("news_data",
    save_tool_result_payload "news_data" "2025-09-14 10:00:02"
      "2023-09-14 至 2025-09-14"
      (get_news_final_result "近三日快讯与重要新闻的合并摘要。"
        [("news", .jobj [("objective", .jstr "快讯新闻分析"),
                         ("status", .jstr "success")])] 3 3 0)),
   ("sentiment_input",
    save_tool_result_payload "sentiment_input" "2025-09-14 10:00:03"
      "2023-09-14 至 2025-09-14"
      (.jobj [("stock_code", .jstr "000001.SZ")])),
   ("fund_data",
    save_tool_result_payload "fund_data" "2025-09-14 10:00:04"
      "2023-09-14 至 2025-09-14"
      (.jobj [("analysis_type", .jstr "资金流向数据分析")]))]

/-- A store that does carry an artifact under the name the Supervisor
looks for — its `combined_summary` still sits inside the saved
envelope's `data` field, not at top level. -/
def structured_store : List (String × JVal) :=
  [("news_sentiment_structured",
    save_tool_result_payload "news_sentiment_structured"
      "2025-09-14 10:00:05" "2023-09-14 至 2025-09-14"
      (.jobj [("combined_summary", .jstr "结构化新闻摘要。")]))]

/-- A 40000-character news item (longer than the 38000 hard cap). -/
def bigPart : String := ⟨List.replicate 40000 'a'⟩

/-- The loop invariant of the packing fold in
`_batch_strings_by_chars`: finished batches are single source items or
fit the cap; the running buffer holds source items, is a singleton or
fits the cap, and `cur` tracks the length of its joined form. -/
def BatchInv (P : String → Prop) (mc : Nat)
    (st : List String × List String × Nat) : Prop :=
  (∀ b ∈ st.1, P b ∨ b.length ≤ mc) ∧
  (∀ x ∈ st.2.1, P x) ∧
  (st.2.1.length ≤ 1 ∨ st.2.2 ≤ mc) ∧
  (st.2.1 ≠ [] → st.2.2 = (joinNN st.2.1).length)

/-- Every character that can occur in an empty-table summary apart
from the digits of the date window: the fixed message fragments and
the objectives of the four collectors. -/
def allowed_fixed_text : String :=
  "【】: 在之间数据为空。板块主力动向通常有-天延迟，建议查询前一个交易日的北向资金近两年指定日期范围内到" ++
  "盈利能力与财务指标每日估值水平股东分红回报营业收入利润构成资产负债结现金流量质未来业绩预期主营务" ++
  "大十持情况人行盘龙虎榜统计机明细筹码布短（）线K均走势中周长月技术MACD/RSIJ等特征涨跌停市场绪快讯新闻析重要央视"

/-- The article of scenario C8 carrying all four time signals:
a JSON-LD-style `datePublished`, a visible `发布时间` line in the page
text, a `/YYYY/MM/DD/` date in the URL, and a relative phrase in the
snippet. -/
def c8_article_full : Article :=
  { schemaVals := [("datePublished", "2025-08-12 09:00")]
    pageMd := "发布时间：2025-08-12 10:30 某公司发布公告，业绩稳健增长。"
    url := "https://news.example.com/2025/08/11/abc.html"
    title := "某公司发布公告"
    snippet := "3 小时前" }

/-- The same article with the JSON-LD field removed. -/
def c8_article_no_schema : Article :=
  { c8_article_full with schemaVals := [] }

/-- The same article with the JSON-LD field removed and no date in the
URL, leaving the visible text and the relative phrase. -/
def c8_article_relative : Article :=
  { c8_article_no_schema with url := "https://news.example.com/abc.html" }

/-- The request end-date used in the C8 scenario (UTC+8). -/
def c8_end_dt : DTime := ⟨⟨2025, 8, 14⟩, 0, 0, 0⟩

/-- A concrete `try`-body frame sequence: one progress frame from a
graph node, as `format_event` produces. -/
def sample_body : List Frame :=
  [{ event_type := "progress", thread_id := "t0"
     agent := "fundamental_analysis", id := "run-1"
     content := "节点 'fundamental_analysis' 开始执行...", finish_reason := none }]

/-! ## Proofs

Generic list/string lemmas first, then the per-claim theorems with
their witnesses and counterexamples. -/

theorem strData_append (a b : String) : (a ++ b).data = a.data ++ b.data := by
  cases a; cases b; rfl

theorem strLen_append (a b : String) : (a ++ b).length = a.length + b.length := by
  cases a with
  | mk la =>
    cases b with
    | mk lb =>
      show (la ++ lb).length = la.length + lb.length
      exact List.length_append la lb

theorem isPrefixL_append (p r : List Char) : isPrefixL p (p ++ r) = true := by
  induction p with
  | nil => simp [isPrefixL]
  | cons a as ih => simp [isPrefixL, ih]

theorem isInfixL_nil_left (hay : List Char) : isInfixL [] hay = true := by
  cases hay <;> simp [isInfixL, isPrefixL]

theorem isInfixL_firstPart (n t : List Char) : isInfixL n (n ++ t) = true := by
  cases n with
  | nil => exact isInfixL_nil_left t
  | cons a as =>
    simp only [isInfixL, Bool.or_eq_true]
    exact Or.inl (by simpa using isPrefixL_append (a :: as) t)

theorem isInfixL_cons (n : List Char) (b : Char) (bs : List Char)
    (h : isInfixL n bs = true) : isInfixL n (b :: bs) = true := by
  simp [isInfixL, h]

theorem isInfixL_append_left (a n x : List Char)
    (h : isInfixL n x = true) : isInfixL n (a ++ x) = true := by
  induction a with
  | nil => simpa using h
  | cons b bs ih => simpa using isInfixL_cons n b (bs ++ x) ih

theorem isPrefixL_subset {p h : List Char} (hp : isPrefixL p h = true) :
    ∀ c ∈ p, c ∈ h := by
  induction p generalizing h with
  | nil => simp
  | cons a as ih =>
    cases h with
    | nil => simp [isPrefixL] at hp
    | cons b bs =>
      simp only [isPrefixL, Bool.and_eq_true, decide_eq_true_eq] at hp
      intro c hc
      rcases List.mem_cons.mp hc with rfl | hc
      · simp [hp.1]
      · exact List.mem_cons_of_mem _ (ih hp.2 c hc)

theorem isInfixL_subset {n h : List Char} (hi : isInfixL n h = true) :
    ∀ c ∈ n, c ∈ h := by
  induction h with
  | nil =>
    cases n with
    | nil => simp
    | cons a as => simp [isInfixL, isPrefixL] at hi
  | cons b bs ih =>
    simp only [isInfixL, Bool.or_eq_true] at hi
    rcases hi with hi | hi
    · exact isPrefixL_subset hi
    · intro c hc
      exact List.mem_cons_of_mem _ (ih hi c hc)

theorem containsSub_false_of_missing (hay needle : String) (c : Char)
    (hc : c ∈ needle.data) (hh : c ∉ hay.data) :
    containsSub hay needle = false := by
  cases hcs : containsSub hay needle with
  | false => rfl
  | true =>
    exact absurd (isInfixL_subset (by simpa [containsSub] using hcs) c hc) hh

theorem containsSub_head (n t : String) : containsSub (n ++ t) n = true := by
  simp only [containsSub, strData_append]
  exact isInfixL_firstPart n.data t.data

theorem containsSub_append_right (a x n : String)
    (h : containsSub x n = true) : containsSub (a ++ x) n = true := by
  simp only [containsSub, strData_append]
  exact isInfixL_append_left a.data n.data x.data (by simpa [containsSub] using h)

theorem strAppend_assoc (a b c : String) : (a ++ b) ++ c = a ++ (b ++ c) := by
  cases a with
  | mk la =>
    cases b with
    | mk lb =>
      cases c with
      | mk lc =>
        show String.mk ((la ++ lb) ++ lc) = String.mk (la ++ (lb ++ lc))
        rw [List.append_assoc]

theorem isPrefixL_extend (p h y : List Char) (hp : isPrefixL p h = true) :
    isPrefixL p (h ++ y) = true := by
  induction p generalizing h with
  | nil => simp [isPrefixL]
  | cons a as ih =>
    cases h with
    | nil => simp [isPrefixL] at hp
    | cons b bs =>
      simp only [isPrefixL, Bool.and_eq_true, decide_eq_true_eq] at hp
      simp only [List.cons_append, isPrefixL, Bool.and_eq_true,
        decide_eq_true_eq]
      exact ⟨hp.1, ih bs hp.2⟩

theorem isInfixL_extend (n x y : List Char) (h : isInfixL n x = true) :
    isInfixL n (x ++ y) = true := by
  induction x with
  | nil =>
    have hn : n = [] := by
      cases n with
      | nil => rfl
      | cons a as => simp [isInfixL, isPrefixL] at h
    subst hn
    simpa using isInfixL_nil_left y
  | cons b bs ih =>
    simp only [isInfixL, Bool.or_eq_true] at h
    simp only [List.cons_append, isInfixL, Bool.or_eq_true]
    rcases h with h | h
    · exact Or.inl (isPrefixL_extend _ _ y h)
    · exact Or.inr (ih h)

theorem containsSub_self (n : String) : containsSub n n = true := by
  have h := isInfixL_firstPart n.data []
  simpa [containsSub] using h

theorem containsSub_extend (x y n : String) (h : containsSub x n = true) :
    containsSub (x ++ y) n = true := by
  simp only [containsSub, strData_append]
  exact isInfixL_extend _ _ _ (by simpa [containsSub] using h)

theorem isDig_ofNat48 (r : Nat) (h : r < 10) :
    isDig (Char.ofNat (48 + r)) = true := by
  interval_cases r <;> decide

theorem natToDecAux_digits :
    ∀ fuel n, ∀ c ∈ natToDecAux fuel n, isDig c = true := by
  intro fuel
  induction fuel with
  | zero => intro n c hc; simp [natToDecAux] at hc
  | succ f ih =>
    intro n c hc
    by_cases h : n < 10
    · simp only [natToDecAux, if_pos h, List.mem_singleton] at hc
      subst hc
      exact isDig_ofNat48 n h
    · simp only [natToDecAux, if_neg h, List.mem_append,
        List.mem_singleton] at hc
      rcases hc with hc | hc
      · exact ih _ c hc
      · subst hc
        exact isDig_ofNat48 _ (Nat.mod_lt _ (by norm_num))

theorem padNum_digits (w n : Nat) :
    ∀ c ∈ (padNum w n).data, isDig c = true := by
  intro c hc
  simp only [padNum, natToDec, List.mem_append] at hc
  rcases hc with hc | hc
  · rw [List.eq_of_mem_replicate hc]; decide
  · exact natToDecAux_digits _ _ c hc

theorem fmtYmd8_digits (d : Date) :
    ∀ c ∈ (fmtYmd8 d).data, isDig c = true := by
  intro c hc
  simp only [fmtYmd8, strData_append, List.mem_append] at hc
  rcases hc with (hc | hc) | hc <;> exact padNum_digits _ _ c hc

theorem lenNN : ("\n\n" : String).length = 2 := rfl

theorem joinNN_singleton (p : String) : joinNN [p] = p := rfl

theorem joinNN_append_length (buf : List String) (p : String) (hb : buf ≠ []) :
    (joinNN (buf ++ [p])).length = (joinNN buf).length + 2 + p.length := by
  induction buf with
  | nil => simp at hb
  | cons a as ih =>
    cases as with
    | nil =>
      show (joinNN [a, p]).length = (joinNN [a]).length + 2 + p.length
      simp [joinNN, strLen_append, lenNN]
    | cons b bs =>
      have h1 : joinNN ((a :: b :: bs) ++ [p]) =
          a ++ "\n\n" ++ joinNN ((b :: bs) ++ [p]) := rfl
      have h2 : joinNN (a :: b :: bs) = a ++ "\n\n" ++ joinNN (b :: bs) := rfl
      rw [h1, h2, strLen_append, strLen_append, strLen_append, strLen_append,
        ih (by simp)]
      simp [lenNN]
      omega

theorem batch_step_inv (P : String → Prop) (mc : Nat)
    (st : List String × List String × Nat) (p : String)
    (hp : P p) (h : BatchInv P mc st) :
    BatchInv P mc (batch_step mc st p) := by
  rcases st with ⟨batches, buf, cur⟩
  rcases h with ⟨h1, h2, h3, h4⟩
  by_cases hb : buf.isEmpty
  · have : batch_step mc (batches, buf, cur) p = (batches, [p], p.length) := by
      simp [batch_step, hb]
    rw [this]
    refine ⟨h1, ?_, ?_, ?_⟩
    · intro x hx; rw [List.mem_singleton.mp hx]; exact hp
    · left; simp
    · intro _; rfl
  · have hbne : buf ≠ [] := by
      cases buf <;> simp_all
    by_cases hfit : cur + 2 + p.length ≤ mc
    · have : batch_step mc (batches, buf, cur) p =
          (batches, buf ++ [p], cur + 2 + p.length) := by
        simp [batch_step, hb, hfit]
      rw [this]
      refine ⟨h1, ?_, ?_, ?_⟩
      · intro x hx
        rcases List.mem_append.mp hx with hx | hx
        · exact h2 x hx
        · rw [List.mem_singleton.mp hx]; exact hp
      · right; exact hfit
      · intro _
        rw [joinNN_append_length buf p hbne, ← h4 hbne]
    · have : batch_step mc (batches, buf, cur) p =
          (batches ++ [joinNN buf], [p], p.length) := by
      -- buf nonempty, does not fit: flush
        simp [batch_step, hb, hfit]
      rw [this]
      refine ⟨?_, ?_, ?_, ?_⟩
      · intro b hbm
        rcases List.mem_append.mp hbm with hbm | hbm
        · exact h1 b hbm
        · rw [List.mem_singleton.mp hbm]
          rcases buf with _ | ⟨x, xs⟩
          · exact absurd rfl hbne
          · cases xs with
            | nil => left; rw [joinNN_singleton]; exact h2 x (by simp)
            | cons y ys =>
              right
              rw [← h4 hbne]
              rcases h3 with h3 | h3
              · simp at h3
              · exact h3
      · intro x hx; rw [List.mem_singleton.mp hx]; exact hp
      · left; simp
      · intro _; rfl

theorem batch_fold_inv (P : String → Prop) (mc : Nat) (parts : List String) :
    ∀ st, (∀ p ∈ parts, P p) → BatchInv P mc st →
      BatchInv P mc (parts.foldl (batch_step mc) st) := by
  induction parts with
  | nil => intro st _ h; exact h
  | cons p ps ih =>
    intro st hp h
    exact ih _ (fun q hq => hp q (List.mem_cons_of_mem _ hq))
      (batch_step_inv P mc st p (hp p (List.mem_cons_self _ _)) h)

theorem batch_strings_good (parts : List String) (mc mp : Nat) :
    ∀ b ∈ batch_strings_by_chars parts mc mp, b ∈ parts ∨ b.length ≤ mc := by
  have hinv : BatchInv (· ∈ parts) mc
      (parts.foldl (batch_step mc) ([], [], 0)) := by
    refine batch_fold_inv _ mc parts ([], [], 0) (fun p hp => hp) ?_
    exact ⟨by simp, by simp, Or.inl (by simp), by simp⟩
  intro b hb
  rcases hinv with ⟨h1, h2, h3, h4⟩
  simp only [batch_strings_by_chars] at hb
  set st := parts.foldl (batch_step mc) ([], [], 0) with hst
  by_cases hbuf : st.2.1.isEmpty
  · rw [if_pos hbuf] at hb
    exact h1 b hb
  · rw [if_neg hbuf] at hb
    rcases List.mem_append.mp hb with hb | hb
    · exact h1 b hb
    · rw [List.mem_singleton.mp hb]
      have hbne : st.2.1 ≠ [] := by
        cases h : st.2.1 <;> simp_all
      rcases hk : st.2.1 with _ | ⟨x, xs⟩
      · exact absurd hk hbne
      · cases xs with
        | nil =>
          left
          rw [joinNN_singleton]
          exact h2 x (by rw [hk]; simp)
        | cons y ys =>
          right
          have h4x := h4 hbne
          rw [hk] at h4x h3
          rw [← h4x]
          rcases h3 with h3 | h3
          · simp at h3
          · exact h3

theorem calc_cap_le_38000 (sp : List String) (M rN rD P O : Nat) :
    calc_batch_char_cap sp M rN rD P O ≤ 38000 := by
  simp only [calc_batch_char_cap]
  exact max_le (min_le_right _ _) (by norm_num)

theorem calc_cap_ge_4000 (sp : List String) (M rN rD P O : Nat) :
    4000 ≤ calc_batch_char_cap sp M rN rD P O :=
  le_max_right _ _

theorem subset_allowed {c : Char} {l : List Char} (hc : c ∈ l)
    (hsub : l ⊆ allowed_fixed_text.data) :
    c ∈ allowed_fixed_text.data ∨ isDig c = true :=
  Or.inl (hsub hc)

theorem empty_summary_chars (dtype objective s : String) (e : Date)
    (hobj : (dtype, objective) ∈ fundamental_data_objectives)
    (hs : parseYmd8Strict s = some e)
    (hdig : ∀ c ∈ s.data, isDig c = true) :
    ∀ c ∈ (process_data_type_empty_summary dtype objective (some s)).data,
      c ∈ allowed_fixed_text.data ∨ isDig c = true := by
  have hne : s ≠ "" := by
    rintro rfl
    rw [show parseYmd8Strict "" = none from by decide] at hs
    exact Option.noConfusion hs
  have hdr : empty_date_range (some s) =
      fmtYmd8 (subDays e 730) ++ "到" ++ s := by
    simp [empty_date_range, hne, hs]
  fin_cases hobj <;>
    (intro c hc
     simp only [process_data_type_empty_summary, hdr] at hc
     rw [if_neg (by decide), if_neg (by decide)] at hc
     simp only [strData_append, List.mem_append] at hc
     casesm* _ ∨ _ <;>
       first
         | exact Or.inr (fmtYmd8_digits _ c (by assumption))
         | exact Or.inr (hdig c (by assumption))
         | exact subset_allowed (by assumption) (by decide))

theorem no_diag_of_chars (t : String)
    (hchars : ∀ c ∈ t.data, c ∈ allowed_fixed_text.data ∨ isDig c = true) :
    diagSubstrings.any (fun d => containsSub t d) = false := by
  have key : ∀ (d : String) (w : Char), w ∈ d.data →
      w ∉ allowed_fixed_text.data → isDig w = false →
      containsSub t d = false := by
    intro d w hw hwa hwd
    refine containsSub_false_of_missing t d w hw ?_
    intro hmem
    rcases hchars w hmem with h | h
    · exact hwa h
    · rw [hwd] at h
      exact absurd h (by decide)
  have k1 := key "生成报告时出错" '错' (by decide) (by decide) (by decide)
  have k2 := key "生成摘要时出错" '错' (by decide) (by decide) (by decide)
  have k3 := key "数据获取失败" '获' (by decide) (by decide) (by decide)
  have k4 := key "Error code:" 'E' (by decide) (by decide) (by decide)
  simp [diagSubstrings, k1, k2, k3, k4]

theorem contains_window (pre dr s1 s2 s3 : String) :
    containsSub (pre ++ dr ++ s1 ++ s2 ++ s3) dr = true :=
  containsSub_extend _ _ _ (containsSub_extend _ _ _ (containsSub_extend _ _ _
    (containsSub_append_right pre dr dr (containsSub_self dr))))

theorem worker_summary_chars (objective s nt : String) (days : Nat) (e : Date)
    (hsub : objective.data ⊆ allowed_fixed_text.data)
    (hs : parseYmd8Strict s = some e)
    (hdig : ∀ c ∈ s.data, isDig c = true) :
    ∀ c ∈ (process_worker_empty_summary objective days nt (some s)).data,
      c ∈ allowed_fixed_text.data ∨ isDig c = true := by
  have hne : s ≠ "" := by
    rintro rfl
    rw [show parseYmd8Strict "" = none from by decide] at hs
    exact Option.noConfusion hs
  have hdr : worker_empty_range days nt (some s) =
      fmtYmd8 (subDays e days) ++ "到" ++ s ++ "之间" := by
    simp [worker_empty_range, hne, hs]
  intro c hc
  simp only [process_worker_empty_summary, hdr] at hc
  simp only [strData_append, List.mem_append] at hc
  casesm* _ ∨ _ <;>
    first
      | exact Or.inr (fmtYmd8_digits _ c (by assumption))
      | exact Or.inr (hdig c (by assumption))
      | exact subset_allowed (by assumption) hsub
      | exact subset_allowed (by assumption) (by decide)

theorem worker_empty_triple (objective s nt : String) (days : Nat) (e : Date)
    (hsub : objective.data ⊆ allowed_fixed_text.data)
    (hs : parseYmd8Strict s = some e)
    (hdig : ∀ c ∈ s.data, isDig c = true) :
    (mkInterfaceResult objective
      (process_worker_empty objective days nt (some s))).status = "success" ∧
    (mkInterfaceResult objective
      (process_worker_empty objective days nt (some s))).raw = [] ∧
    containsSub (mkInterfaceResult objective
        (process_worker_empty objective days nt (some s))).result
      (fmtYmd8 (subDays e days) ++ "到" ++ s) = true := by
  have hchars := worker_summary_chars objective s nt days e hsub hs hdig
  have hnd := no_diag_of_chars _ hchars
  have hne : s ≠ "" := by
    rintro rfl
    rw [show parseYmd8Strict "" = none from by decide] at hs
    exact Option.noConfusion hs
  have hdr : worker_empty_range days nt (some s) =
      fmtYmd8 (subDays e days) ++ "到" ++ s ++ "之间" := by
    simp [worker_empty_range, hne, hs]
  refine ⟨?_, rfl, ?_⟩
  · simp [mkInterfaceResult, process_worker_empty, hnd]
  · show containsSub
      (process_worker_empty_summary objective days nt (some s)) _ = true
    simp only [process_worker_empty_summary]
    rw [hdr]
    exact containsSub_extend _ "数据为空" _
      (containsSub_extend _ objective _
        (containsSub_append_right ("【" ++ objective ++ "】: ") _ _
          (containsSub_extend _ "之间" _ (containsSub_self _))))

/-- C1, counterexample: for `end_date = "20250301"` the provider's
window start is `"20230302"` — `timedelta(days=730)` does not preserve
the month/day across the leap day 2024-02-29 — while the claim's
calendar subtraction demands `"20230301"` (which is also what the
persisted `analysis_period` uses). -/
theorem c1_counterexample :
    tushare_get_date_range ⟨2025, 9, 14⟩ (some "20250301") 2 =
      ("20230302", "20250301") ∧
    ("20230302" : String) ≠ "20230301" ∧
    get_analysis_period (some "20250301") = "2023-03-01 至 2025-03-01" := by
  refine ⟨by decide, by decide, by decide⟩

/-- C1, amended: for any end date accepted by both parsers, the
`analysis_period` persisted in artifacts uses calendar-year
subtraction preserving month and day (when that date exists), while
the provider fetch window start is `end − 730 days`. -/
theorem c1_window (s : String) (e st today : Date)
    (hT : parseDateTushare s = some e)
    (hR : parseDateRM s = some e)
    (hrep : replaceYear e (e.y - 2) = some st) :
    get_analysis_period (some s) = fmtIso st ++ " 至 " ++ fmtIso e ∧
    st.y = e.y - 2 ∧ st.m = e.m ∧ st.d = e.d ∧
    tushare_get_date_range today (some s) 2 =
      (fmtYmd8 (subDays e 730), fmtYmd8 e) := by
  have hne : s ≠ "" := by
    rintro rfl
    rw [show parseDateRM "" = none from by decide] at hR
    exact Option.noConfusion hR
  have hst : st = ⟨e.y - 2, e.m, e.d⟩ := by
    simp only [replaceYear] at hrep
    split at hrep
    · exact (Option.some.inj hrep).symm
    · exact Option.noConfusion hrep
  refine ⟨?_, ?_, ?_, ?_, ?_⟩
  · simp [get_analysis_period, hne, hR, hrep]
  · rw [hst]
  · rw [hst]
  · rw [hst]
  · simp [tushare_get_date_range, hT]

theorem c1_window_witness :
    get_analysis_period (some "20250914") =
      fmtIso ⟨2023, 9, 14⟩ ++ " 至 " ++ fmtIso ⟨2025, 9, 14⟩ ∧
    (⟨2023, 9, 14⟩ : Date).y = (⟨2025, 9, 14⟩ : Date).y - 2 ∧
    (⟨2023, 9, 14⟩ : Date).m = (⟨2025, 9, 14⟩ : Date).m ∧
    (⟨2023, 9, 14⟩ : Date).d = (⟨2025, 9, 14⟩ : Date).d ∧
    tushare_get_date_range ⟨2025, 9, 14⟩ (some "20250914") 2 =
      (fmtYmd8 (subDays ⟨2025, 9, 14⟩ 730), fmtYmd8 ⟨2025, 9, 14⟩) :=
  c1_window "20250914" ⟨2025, 9, 14⟩ ⟨2023, 9, 14⟩ ⟨2025, 9, 14⟩
    (by decide) (by decide) (by decide)

/-- C2, counterexample: the tool artifacts do not use the claimed
`<kind>_data.json` / `sentiment_input.json` names —
`save_tool_result` appends `_tool_result.json`. -/
theorem c2_counterexample :
    "fundamental_data.json" ∉
      (run_artifacts ⟨2025, 9, 14⟩ "20250914").map Prod.snd ∧
    "sentiment_input.json" ∉
      (run_artifacts ⟨2025, 9, 14⟩ "20250914").map Prod.snd ∧
    "fundamental_data_tool_result.json" ∈
      (run_artifacts ⟨2025, 9, 14⟩ "20250914").map Prod.snd ∧
    "sentiment_input_tool_result.json" ∈
      (run_artifacts ⟨2025, 9, 14⟩ "20250914").map Prod.snd := by
  refine ⟨by decide, by decide, by decide, by decide⟩

/-- C2, amended: the artifacts of one run, as
`(date directory, filename)` pairs: five `*_tool_result.json` tool
outputs and six `*_report.json` reports under the end-date directory
(reports written twice: once by their node, once by
`save_all_reports`), and `analysis_summary.json` under the current
date's directory. -/
theorem c2_artifacts (today : Date) (s : String) (e : Date)
    (h : parseDateRM s = some e) :
    run_artifacts today s =
      [(fmtYmd8 e, "fundamental_data_tool_result.json"),
       (fmtYmd8 e, "fundamental_report.json"),
       (fmtYmd8 e, "tech_data_tool_result.json"),
       (fmtYmd8 e, "technical_report.json"),
       (fmtYmd8 e, "news_data_tool_result.json"),
       (fmtYmd8 e, "news_report.json"),
       (fmtYmd8 e, "sentiment_input_tool_result.json"),
       (fmtYmd8 e, "sentiment_report.json"),
       (fmtYmd8 e, "fund_data_tool_result.json"),
       (fmtYmd8 e, "fund_report.json"),
       (fmtYmd8 e, "supervisor_report.json"),
       (fmtYmd8 e, "fundamental_report.json"),
       (fmtYmd8 e, "technical_report.json"),
       (fmtYmd8 e, "sentiment_report.json"),
       (fmtYmd8 e, "news_report.json"),
       (fmtYmd8 e, "fund_report.json"),
       (fmtYmd8 e, "supervisor_report.json"),
       (fmtYmd8 today, "analysis_summary.json")] := by
  have hne : s ≠ "" := by
    rintro rfl
    rw [show parseDateRM "" = none from by decide] at h
    exact Option.noConfusion h
  simp [run_artifacts, save_tool_result_artifact, save_report_artifact,
    date_dir_str, hne, h]

theorem c2_artifacts_witness :
    run_artifacts ⟨2025, 9, 14⟩ "20250914" =
      [(fmtYmd8 ⟨2025, 9, 14⟩, "fundamental_data_tool_result.json"),
       (fmtYmd8 ⟨2025, 9, 14⟩, "fundamental_report.json"),
       (fmtYmd8 ⟨2025, 9, 14⟩, "tech_data_tool_result.json"),
       (fmtYmd8 ⟨2025, 9, 14⟩, "technical_report.json"),
       (fmtYmd8 ⟨2025, 9, 14⟩, "news_data_tool_result.json"),
       (fmtYmd8 ⟨2025, 9, 14⟩, "news_report.json"),
       (fmtYmd8 ⟨2025, 9, 14⟩, "sentiment_input_tool_result.json"),
       (fmtYmd8 ⟨2025, 9, 14⟩, "sentiment_report.json"),
       (fmtYmd8 ⟨2025, 9, 14⟩, "fund_data_tool_result.json"),
       (fmtYmd8 ⟨2025, 9, 14⟩, "fund_report.json"),
       (fmtYmd8 ⟨2025, 9, 14⟩, "supervisor_report.json"),
       (fmtYmd8 ⟨2025, 9, 14⟩, "fundamental_report.json"),
       (fmtYmd8 ⟨2025, 9, 14⟩, "technical_report.json"),
       (fmtYmd8 ⟨2025, 9, 14⟩, "sentiment_report.json"),
       (fmtYmd8 ⟨2025, 9, 14⟩, "news_report.json"),
       (fmtYmd8 ⟨2025, 9, 14⟩, "fund_report.json"),
       (fmtYmd8 ⟨2025, 9, 14⟩, "supervisor_report.json"),
       (fmtYmd8 ⟨2025, 9, 14⟩, "analysis_summary.json")] :=
  c2_artifacts ⟨2025, 9, 14⟩ "20250914" ⟨2025, 9, 14⟩ (by decide)

/-- C3: over the artifact store of a completed run — which contains
the news tool result `news_data` with a nonempty `combined_summary` —
the Supervisor's news summary is the empty string, because
`load_news_data` looks up the never-written names
`news_sentiment_structured` / `news_sentiment`; the Sentiment node's
read of the same store does retrieve the combined summary.  Even a
store carrying an artifact under the looked-up name yields the empty
string, because `run_supervisor` reads `combined_summary` at the top
level of the saved envelope instead of inside its `data` field. -/
theorem c3_supervisor_news_blank :
    supervisor_news_summary run_store = .jstr "" ∧
    sentiment_news_combined_summary run_store =
      .jstr "近三日快讯与重要新闻的合并摘要。" ∧
    (∀ name ∈ run_store.map Prod.fst,
      name ≠ "news_sentiment_structured" ∧ name ≠ "news_sentiment") ∧
    supervisor_news_summary structured_store = .jstr "" := by
  refine ⟨rfl, rfl, by decide, rfl⟩

/-- C4, counterexample: a single 40000-character item forms its own
batch, exceeding both the computed cap and the 38000 hard cap
(`M = 65000 ≥ 16k`, ratio `0.55`, the `get_news` parameters). -/
theorem c4_counterexample :
    calc_batch_char_cap [bigPart] 65000 55 100 1200 1500 = 38000 ∧
    batch_strings_by_chars [bigPart]
      (calc_batch_char_cap [bigPart] 65000 55 100 1200 1500) 600 =
      [bigPart] ∧
    38000 < bigPart.length := by
  have hlen : bigPart.length = 40000 := by
    show (List.replicate 40000 'a').length = 40000
    exact List.length_replicate 40000 'a'
  have hcjk : cjkCount bigPart = 0 := by
    show ((List.replicate 40000 'a').filter isCJK).length = 0
    rw [List.filter_replicate, if_neg (by decide)]
    rfl
  have hheavy : cjk_heavy (joinNL (List.take 20 [bigPart])) = false := by
    rw [show joinNL (List.take 20 [bigPart]) = bigPart from rfl]
    simp [cjk_heavy, hlen, hcjk]
  refine ⟨?_, rfl, by rw [hlen]; norm_num⟩
  simp only [calc_batch_char_cap, hheavy]
  decide

/-- C4, amended: the cap is a soft packing limit — every produced
batch is either a single source item (possibly longer than the cap) or
has length at most the cap; the cap itself never exceeds 38000, so
whenever every item fits the cap every batch has at most 38000
characters. -/
theorem c4_soft_cap (parts : List String) (M rN rD P O mp : Nat) :
    (∀ b ∈ batch_strings_by_chars parts
        (calc_batch_char_cap parts M rN rD P O) mp,
      b ∈ parts ∨ b.length ≤ calc_batch_char_cap parts M rN rD P O) ∧
    calc_batch_char_cap parts M rN rD P O ≤ 38000 ∧
    (∀ b ∈ batch_strings_by_chars parts
        (calc_batch_char_cap parts M rN rD P O) mp,
      (∀ p ∈ parts, p.length ≤ calc_batch_char_cap parts M rN rD P O) →
        b.length ≤ 38000) := by
  refine ⟨batch_strings_good _ _ _, calc_cap_le_38000 _ _ _ _ _ _, ?_⟩
  intro b hb hp
  rcases batch_strings_good parts _ mp b hb with h | h
  · exact le_trans (hp b h) (calc_cap_le_38000 _ _ _ _ _ _)
  · exact le_trans h (calc_cap_le_38000 _ _ _ _ _ _)

theorem c4_soft_cap_witness :
    ("新闻一\n\n新闻二" ∈ (["新闻一", "新闻二"] : List String) ∨
      ("新闻一\n\n新闻二" : String).length ≤
        calc_batch_char_cap ["新闻一", "新闻二"] 65000 55 100 1200 1500) ∧
    calc_batch_char_cap ["新闻一", "新闻二"] 65000 55 100 1200 1500 ≤
      38000 :=
  ⟨(c4_soft_cap ["新闻一", "新闻二"] 65000 55 100 1200 1500 600).1
      "新闻一\n\n新闻二" (by decide),
   (c4_soft_cap ["新闻一", "新闻二"] 65000 55 100 1200 1500 600).2.1⟩

/-- C5, counterexample: `end_date = "2025-09-14"` is accepted by the
acquisition layer's parser, yet the empty-table summary contains no
window string at all (`strptime('%Y%m%d')` rejects the dashed form, so
the fixed phrase is used); status and raw rows still behave as
claimed. -/
theorem c5_counterexample :
    parseDateTushare "2025-09-14" = some ⟨2025, 9, 14⟩ ∧
    (mkInterfaceResult "盈利能力与财务指标"
      (process_data_type_empty "fina_indicator" "盈利能力与财务指标"
        (some "2025-09-14"))).status = "success" ∧
    (mkInterfaceResult "盈利能力与财务指标"
      (process_data_type_empty "fina_indicator" "盈利能力与财务指标"
        (some "2025-09-14"))).raw = [] ∧
    (mkInterfaceResult "盈利能力与财务指标"
      (process_data_type_empty "fina_indicator" "盈利能力与财务指标"
        (some "2025-09-14"))).result =
      "【盈利能力与财务指标】: 在指定日期范围内之间盈利能力与财务指标数据为空" ∧
    containsSub (mkInterfaceResult "盈利能力与财务指标"
        (process_data_type_empty "fina_indicator" "盈利能力与财务指标"
          (some "2025-09-14"))).result
      (fmtYmd8 (subDays ⟨2025, 9, 14⟩ 730) ++ "到" ++ "2025-09-14") =
      false ∧
    containsSub (mkInterfaceResult "盈利能力与财务指标"
        (process_data_type_empty "fina_indicator" "盈利能力与财务指标"
          (some "2025-09-14"))).result "2025" = false := by
  refine ⟨by decide, by decide, rfl, by decide, by decide, by decide⟩

/-- C5, amended: for any interface of the four data collectors whose
fetch returns an empty table under a `YYYYMMDD` end date, the
InterfaceResult has status `"success"`, empty raw rows, and a summary
containing the computed window string `start到end` — with
`start = end − 730 days` for the fundamental, fund and tech
interfaces and `start = end − 3 days` for the news interfaces. -/
theorem c5_empty_success (dtype objective s : String) (e : Date)
    (hs : parseYmd8Strict s = some e)
    (hdig : ∀ c ∈ s.data, isDig c = true) :
    ((dtype, objective) ∈ fundamental_data_objectives →
      (mkInterfaceResult objective
        (process_data_type_empty dtype objective (some s))).status =
        "success" ∧
      (mkInterfaceResult objective
        (process_data_type_empty dtype objective (some s))).raw = [] ∧
      containsSub (mkInterfaceResult objective
          (process_data_type_empty dtype objective (some s))).result
        (fmtYmd8 (subDays e 730) ++ "到" ++ s) = true) ∧
    ((dtype, objective) ∈ fund_data_objectives →
      (mkInterfaceResult objective
        (process_fund_empty objective (some s))).status = "success" ∧
      (mkInterfaceResult objective
        (process_fund_empty objective (some s))).raw = [] ∧
      containsSub (mkInterfaceResult objective
          (process_fund_empty objective (some s))).result
        (fmtYmd8 (subDays e 730) ++ "到" ++ s) = true) ∧
    ((dtype, objective) ∈ tech_data_objectives →
      (mkInterfaceResult objective
        (process_tech_empty objective (some s))).status = "success" ∧
      (mkInterfaceResult objective
        (process_tech_empty objective (some s))).raw = [] ∧
      containsSub (mkInterfaceResult objective
          (process_tech_empty objective (some s))).result
        (fmtYmd8 (subDays e 730) ++ "到" ++ s) = true) ∧
    ((dtype, objective) ∈ news_data_objectives →
      (mkInterfaceResult objective
        (process_news_empty objective (some s))).status = "success" ∧
      (mkInterfaceResult objective
        (process_news_empty objective (some s))).raw = [] ∧
      containsSub (mkInterfaceResult objective
          (process_news_empty objective (some s))).result
        (fmtYmd8 (subDays e 3) ++ "到" ++ s) = true) := by
  refine ⟨?_, ?_, ?_, ?_⟩
  · intro hobj
    have hchars := empty_summary_chars dtype objective s e hobj hs hdig
    have hnd := no_diag_of_chars _ hchars
    have hne : s ≠ "" := by
      rintro rfl
      rw [show parseYmd8Strict "" = none from by decide] at hs
      exact Option.noConfusion hs
    have hdr : empty_date_range (some s) =
        fmtYmd8 (subDays e 730) ++ "到" ++ s := by
      simp [empty_date_range, hne, hs]
    refine ⟨?_, rfl, ?_⟩
    · simp [mkInterfaceResult, process_data_type_empty, hnd]
    · show containsSub
        (process_data_type_empty_summary dtype objective (some s)) _ = true
      simp only [process_data_type_empty_summary, hdr]
      split
      · exact contains_window _ _ _ _ _
      · split
        · exact contains_window _ _ _ _ _
        · exact contains_window _ _ _ _ _
  · intro hobj
    have hsub : objective.data ⊆ allowed_fixed_text.data := by
      fin_cases hobj <;> decide
    exact worker_empty_triple objective s "近两年内" 730 e hsub hs hdig
  · intro hobj
    have hsub : objective.data ⊆ allowed_fixed_text.data := by
      fin_cases hobj <;> decide
    exact worker_empty_triple objective s "近两年内" 730 e hsub hs hdig
  · intro hobj
    have hsub : objective.data ⊆ allowed_fixed_text.data := by
      fin_cases hobj <;> decide
    exact worker_empty_triple objective s "近3天内" 3 e hsub hs hdig

theorem c5_empty_success_witness :
    (mkInterfaceResult "盈利能力与财务指标"
      (process_data_type_empty "fina_indicator" "盈利能力与财务指标"
        (some "20250914"))).status = "success" ∧
    containsSub (mkInterfaceResult "盈利能力与财务指标"
        (process_data_type_empty "fina_indicator" "盈利能力与财务指标"
          (some "20250914"))).result
      (fmtYmd8 (subDays ⟨2025, 9, 14⟩ 730) ++ "到" ++ "20250914") = true ∧
    (mkInterfaceResult "快讯新闻分析"
      (process_news_empty "快讯新闻分析" (some "20250914"))).status =
      "success" ∧
    (mkInterfaceResult "快讯新闻分析"
      (process_news_empty "快讯新闻分析" (some "20250914"))).raw = [] ∧
    containsSub (mkInterfaceResult "快讯新闻分析"
        (process_news_empty "快讯新闻分析" (some "20250914"))).result
      (fmtYmd8 (subDays ⟨2025, 9, 14⟩ 3) ++ "到" ++ "20250914") = true := by
  have hf := c5_empty_success "fina_indicator" "盈利能力与财务指标" "20250914"
    ⟨2025, 9, 14⟩ (by decide) (by decide)
  have hn := c5_empty_success "news" "快讯新闻分析" "20250914"
    ⟨2025, 9, 14⟩ (by decide) (by decide)
  obtain ⟨hf1, _, hf3⟩ := hf.1 (by decide)
  obtain ⟨hn1, hn2, hn3⟩ := hn.2.2.2 (by decide)
  exact ⟨hf1, hf3, hn1, hn2, hn3⟩

theorem getLast_append_two {α : Type} (l : List α) (x y : α) :
    (l ++ [x, y]).getLast? = some y := by
  have h : l ++ [x, y] = (l ++ [x]) ++ [y] := by simp
  rw [h]
  exact List.getLast?_concat _

/-- C6: every stream the generator yields ends with the terminal
`system` frame (a `message_chunk` with `finish_reason=stop`); among
frames on the `system`/`system_error` agents the stream holds exactly
that terminal frame on the success path, and exactly the
`system_error` frame immediately followed by the terminal frame on the
error path. -/
theorem c6_stream_termination (tid : String) (body : List Frame)
    (err : Option String)
    (hbody : ∀ f ∈ body, f.agent ≠ "system" ∧ f.agent ≠ "system_error") :
    (stream_frames tid body err).getLast? = some (final_frame tid) ∧
    (final_frame tid).event_type = "message_chunk" ∧
    (final_frame tid).agent = "system" ∧
    (final_frame tid).finish_reason = some "stop" ∧
    ((stream_frames tid body err).filter
        (fun f => f.agent == "system" || f.agent == "system_error") =
      match err with
      | some e => [error_frame tid e, final_frame tid]
      | none => [final_frame tid]) ∧
    (∀ e, err = some e →
      stream_frames tid body err =
        body ++ [error_frame tid e, final_frame tid]) := by
  have hfilter : body.filter
      (fun f => f.agent == "system" || f.agent == "system_error") = [] := by
    rw [List.filter_eq_nil_iff]
    intro f hf
    rcases hbody f hf with ⟨h1, h2⟩
    simp [h1, h2]
  cases err with
  | none =>
    have hs : stream_frames tid body none = body ++ [final_frame tid] := by
      simp [stream_frames]
    refine ⟨?_, rfl, rfl, rfl, ?_, ?_⟩
    · rw [hs]
      exact List.getLast?_concat _
    · rw [hs, List.filter_append, hfilter]
      rfl
    · intro e he
      exact Option.noConfusion he
  | some e =>
    have hs : stream_frames tid body (some e) =
        body ++ [error_frame tid e, final_frame tid] := by
      simp [stream_frames]
    refine ⟨?_, rfl, rfl, rfl, ?_, ?_⟩
    · rw [hs]
      exact getLast_append_two _ _ _
    · rw [hs, List.filter_append, hfilter]
      rfl
    · intro e' he'
      rw [← Option.some.inj he']
      exact hs

theorem c6_stream_termination_witness :
    (stream_frames "t0" sample_body (some "LLM调用超时")).getLast? =
      some (final_frame "t0") ∧
    (final_frame "t0").event_type = "message_chunk" ∧
    (final_frame "t0").agent = "system" ∧
    (final_frame "t0").finish_reason = some "stop" ∧
    ((stream_frames "t0" sample_body (some "LLM调用超时")).filter
        (fun f => f.agent == "system" || f.agent == "system_error") =
      [error_frame "t0" "LLM调用超时", final_frame "t0"]) ∧
    (∀ e, (some "LLM调用超时" : Option String) = some e →
      stream_frames "t0" sample_body (some "LLM调用超时") =
        sample_body ++ [error_frame "t0" e, final_frame "t0"]) :=
  c6_stream_termination "t0" sample_body (some "LLM调用超时") (by decide)

/-- C7: any LLM response whose fence-stripped body `json.loads`
rejects is parsed to the sentinel report — `analyst_name` 分析失败,
`viewpoint` 中性, empty `scores`, and `detailed_analysis` equal to
`解析失败: ` followed by the response truncated to 200 characters
(plus an ellipsis), in particular beginning with `解析失败:`. -/
theorem c7_parse_sentinel (jparse : String → Option JVal)
    (content : String)
    (h : jparse (extract_json_str content) = none) :
    parse_analyst_report jparse content =
      .jobj [("analyst_name", .jstr "分析失败"),
             ("viewpoint", .jstr "中性"),
             ("reason", .jstr "数据解析失败"),
             ("scores", .jobj []),
             ("detailed_analysis",
              .jstr ("解析失败: " ++ takeStr content 200 ++ "..."))] ∧
    isPrefixL "解析失败:".data
      ("解析失败: " ++ takeStr content 200 ++ "...").data = true := by
  constructor
  · simp [parse_analyst_report, h, json_fail_report]
  · rw [strData_append, strData_append,
      show ("解析失败: " : String).data = "解析失败:".data ++ " ".data from rfl]
    simp only [List.append_assoc]
    exact isPrefixL_append _ _

theorem c7_parse_sentinel_witness :
    parse_analyst_report (fun _ => none) "这不是JSON" =
      .jobj [("analyst_name", .jstr "分析失败"),
             ("viewpoint", .jstr "中性"),
             ("reason", .jstr "数据解析失败"),
             ("scores", .jobj []),
             ("detailed_analysis",
              .jstr ("解析失败: " ++ takeStr "这不是JSON" 200 ++ "..."))] ∧
    isPrefixL "解析失败:".data
      ("解析失败: " ++ takeStr "这不是JSON" 200 ++ "...").data = true :=
  c7_parse_sentinel (fun _ => none) "这不是JSON" rfl

/-- C8: evaluating the embedded time-resolution chain on an article
carrying all four time signals.  With the JSON-LD-style field present
the schema value wins.  With it removed the chosen time is the URL
date, not the visible `发布时间` date — the visible-text regex never
fires because its pattern does not even compile (see
`visible_time_step`).  With the URL date also absent the relative
phrase resolves against the request end-date, as specified. -/
theorem c8_time_priority :
    item_published_at c8_article_full c8_end_dt = "2025-08-12 09:00" ∧
    item_published_at c8_article_no_schema c8_end_dt = "2025-08-11 00:00" ∧
    item_published_at c8_article_relative c8_end_dt = "2025-08-13 21:00" ∧
    ("2025-08-11 00:00" : String) ≠ "2025-08-12 10:30" := by
  refine ⟨by decide, by decide, by decide, by decide⟩

/-- C9, counterexample: a text with two positive hits and one negative
hit — a strictly positive difference, which the claim says must yield
正面 — is labelled 中性, because the code tests only boolean presence
of each polarity. -/
theorem c9_counterexample :
    word_hits default_pos_words "公司获批回购方案，但遭处罚" = 2 ∧
    word_hits default_neg_words "公司获批回购方案，但遭处罚" = 1 ∧
    simple_cn_sentiment default_pos_words default_neg_words
      "公司获批回购方案，但遭处罚" = "中性" ∧
    ("中性" : String) ≠ "正面" := by
  refine ⟨by decide, by decide, by decide, by decide⟩

theorem any_iff_hits (l : List String) (p : String → Bool) :
    l.any p = true ↔ 1 ≤ (l.filter p).length := by
  rw [List.any_eq_true]
  constructor
  · rintro ⟨w, hw, hp⟩
    exact List.length_pos.mpr (List.ne_nil_of_mem (List.mem_filter.mpr ⟨hw, hp⟩))
  · intro h
    rcases List.exists_mem_of_ne_nil _ (List.ne_nil_of_length_pos h) with ⟨w, hw⟩
    rcases List.mem_filter.mp hw with ⟨hw1, hw2⟩
    exact ⟨w, hw1, hw2⟩

/-- C9, amended: the label is determined by boolean presence, not hit
counts: 正面 iff some positive word occurs and no negative word does,
负面 symmetrically, 中性 otherwise (in particular whenever both
polarities occur, whatever the counts). -/
theorem c9_presence_not_counts (pos neg : List String) (t : String) :
    simple_cn_sentiment pos neg t =
      (if 1 ≤ word_hits pos t ∧ word_hits neg t = 0 then "正面"
       else if word_hits pos t = 0 ∧ 1 ≤ word_hits neg t then "负面"
       else "中性") := by
  have hpos := any_iff_hits pos (fun w => containsSub t w)
  have hneg := any_iff_hits neg (fun w => containsSub t w)
  simp only [simple_cn_sentiment, word_hits]
  cases hp : pos.any (fun w => containsSub t w) with
  | false =>
    rw [hp] at hpos
    have hp0 : (pos.filter (fun w => containsSub t w)).length = 0 := by
      rcases Nat.eq_zero_or_pos (pos.filter (fun w => containsSub t w)).length
        with h | h
      · exact h
      · exact absurd (hpos.mpr h) (by simp)
    cases hn : neg.any (fun w => containsSub t w) with
    | false =>
      rw [hn] at hneg
      have hn0 : (neg.filter (fun w => containsSub t w)).length = 0 := by
        rcases Nat.eq_zero_or_pos (neg.filter (fun w => containsSub t w)).length
          with h | h
        · exact h
        · exact absurd (hneg.mpr h) (by simp)
      simp only [Bool.not_false, Bool.and_true, Bool.false_and,
        Bool.false_eq_true, if_false]
      rw [if_neg (by omega), if_neg (by omega)]
    | true =>
      rw [hn] at hneg
      have hn1 : 1 ≤ (neg.filter (fun w => containsSub t w)).length :=
        hneg.mp rfl
      simp only [Bool.not_true, Bool.and_false, Bool.false_and,
        Bool.not_false, Bool.true_and, Bool.false_eq_true, Bool.true_eq_false,
        if_false, if_true]
      rw [if_neg (by omega), if_pos (by omega)]
  | true =>
    rw [hp] at hpos
    have hp1 : 1 ≤ (pos.filter (fun w => containsSub t w)).length :=
      hpos.mp rfl
    cases hn : neg.any (fun w => containsSub t w) with
    | false =>
      rw [hn] at hneg
      have hn0 : (neg.filter (fun w => containsSub t w)).length = 0 := by
        rcases Nat.eq_zero_or_pos (neg.filter (fun w => containsSub t w)).length
          with h | h
        · exact h
        · exact absurd (hneg.mpr h) (by simp)
      simp only [Bool.not_false, Bool.and_true, Bool.true_and,
        Bool.false_eq_true, if_false, if_true]
      rw [if_pos (by omega)]
    | true =>
      rw [hn] at hneg
      have hn1 : 1 ≤ (neg.filter (fun w => containsSub t w)).length :=
        hneg.mp rfl
      simp only [Bool.not_true, Bool.and_false, Bool.false_eq_true, if_false]
      rw [if_neg (by omega), if_neg (by omega)]

/-- C10: in the collectors' assembled InterfaceResults the status is
`"success"` exactly when none of the four diagnostic substrings occurs
in the summary, and `"error"` exactly when one does; the status is a
function of the summary text alone (the payload carries no success
flag), and summary and raw rows pass through unchanged. -/
theorem c10_status_substring_only (objective : String) (p : Payload) :
    ((mkInterfaceResult objective p).status = "success" ↔
      ∀ d ∈ diagSubstrings, containsSub p.summary d = false) ∧
    ((mkInterfaceResult objective p).status = "error" ↔
      ∃ d ∈ diagSubstrings, containsSub p.summary d = true) ∧
    (mkInterfaceResult objective p).result = p.summary ∧
    (mkInterfaceResult objective p).raw = p.raw := by
  have hstat : (mkInterfaceResult objective p).status =
      (if diagSubstrings.any (fun d => containsSub p.summary d) then "error"
       else "success") := rfl
  by_cases h : diagSubstrings.any (fun d => containsSub p.summary d) = true
  · rcases List.any_eq_true.mp h with ⟨d, hd, hc⟩
    rw [hstat, if_pos h]
    refine ⟨?_, ?_, rfl, rfl⟩
    · constructor
      · intro habs
        exact absurd habs (by decide)
      · intro hall
        rw [hall d hd] at hc
        exact absurd hc (by decide)
    · exact ⟨fun _ => ⟨d, hd, hc⟩, fun _ => rfl⟩
  · have h' : diagSubstrings.any (fun d => containsSub p.summary d) = false :=
      Bool.eq_false_iff.mpr h
    rw [hstat, if_neg h]
    refine ⟨?_, ?_, rfl, rfl⟩
    · refine ⟨fun _ d hd => ?_, fun _ => rfl⟩
      have := List.any_eq_false.mp h' d hd
      exact Bool.eq_false_iff.mpr this
    · constructor
      · intro habs
        exact absurd habs (by decide)
      · rintro ⟨d, hd, hc⟩
        exact absurd (List.any_eq_true.mpr ⟨d, hd, hc⟩) h


end FinanceAgent
